import Mathlib

/-!
Verification of the ArchDrop chunked transfer core: a shallow embedding of
the session/claim state machine, the per-chunk AES-256-GCM contracts, the
send-side chunk pipeline (dedup set, counters, buffer pool), the progress
tracker, filename validation, and the one-shot download session store.

Bytes are modelled as `Nat` (values below 256 in practice; the XOR laws used
hold for all naturals). Machine counters (`u32`, `u64`) are `Nat` with
explicit reduction modulo `2 ^ 32` / `2 ^ 64` where the source truncates or
its release-mode arithmetic wraps.
-/

namespace ArchDrop

/-! ## Crypto primitives (src/crypto/encryption.rs and the nonce type)

`crypto/types.rs` (the `Nonce` and `EncryptionKey` types) is not part of the
provided sources; the nonce construction is modelled from the spec. The
AES-256-GCM cipher itself lives in the external `aes_gcm` crate; it is
modelled from the spec's AEAD contract (§4.1): counter-mode keystream XOR
plus a 16-byte authentication tag recomputed and checked on open.
-/

/-- Big-endian 4-byte encoding of a 32-bit counter. -/
def be32 (c : Nat) : List Nat :=
  [c / 2 ^ 24 % 256, c / 2 ^ 16 % 256, c / 2 ^ 8 % 256, c % 256]

/-- Modelled from the spec: the per-file 8-byte nonce base
(`crypto/types.rs` is missing from the sources). -/
structure Nonce where
  base : List Nat
deriving Repr, DecidableEq

/-- Modelled from the spec: `Nonce::with_counter(u32)` produces the 12-byte
AEAD nonce `base ‖ BE32(counter)` (spec §3, glossary). -/
def Nonce.with_counter (n : Nonce) (counter : Nat) : List Nat :=
  n.base ++ be32 (counter % 2 ^ 32)

/-- XOR a byte list against a keystream starting at stream position `i`. -/
def xorStream (ks : Nat → Nat) (i : Nat) : List Nat → List Nat
  | [] => []
  | b :: rest => (b ^^^ ks i) :: xorStream ks (i + 1) rest

/-- Modelled from the spec: the `aes_gcm::Aes256Gcm` cipher bound to the
session key (external crate, §4.1). GCM is counter-mode encryption with a
16-byte tag over the ciphertext; the block cipher is abstracted into the
keystream and tag functions, both deterministic in the nonce. -/
structure Aes256Gcm where
  keystream : List Nat → Nat → Nat
  tag : List Nat → List Nat → List Nat
  tag_len : ∀ nonce ct, (tag nonce ct).length = 16

/-- Modelled from the spec: GCM seal — encrypt the buffer with the
nonce-derived keystream and append the 16-byte tag (§4.1). -/
def Aes256Gcm.encrypt (c : Aes256Gcm) (nonce : List Nat) (plaintext : List Nat) :
    List Nat :=
  let ct := xorStream (c.keystream nonce) 0 plaintext
  ct ++ c.tag nonce ct

/-- Modelled from the spec: GCM open — split off the trailing 16-byte tag,
recompute it over the ciphertext, and decrypt only on a match (§4.1). -/
def Aes256Gcm.decrypt (c : Aes256Gcm) (nonce : List Nat) (data : List Nat) :
    Option (List Nat) :=
  if 16 ≤ data.length then
    let ct := data.take (data.length - 16)
    let tg := data.drop (data.length - 16)
    if tg = c.tag nonce ct then some (xorStream (c.keystream nonce) 0 ct) else none
  else none

/-- `encrypt_chunk_at_position` (src/crypto/encryption.rs:27-39): derive the
full nonce from the base and the chunk counter, then seal. -/
def encrypt_chunk_at_position (cipher : Aes256Gcm) (nonce_base : Nonce)
    (plaintext : List Nat) (counter : Nat) : List Nat :=
  let full_nonce := nonce_base.with_counter counter
  cipher.encrypt full_nonce plaintext

/-- `decrypt_chunk_at_position` (src/crypto/encryption.rs:13-25): derive the
same nonce and open; `none` is the crate's `aead::Error` (tag mismatch). -/
def decrypt_chunk_at_position (cipher : Aes256Gcm) (nonce_base : Nonce)
    (encrypted_data : List Nat) (counter : Nat) : Option (List Nat) :=
  let full_nonce := nonce_base.with_counter counter
  cipher.decrypt full_nonce encrypted_data

lemma xorStream_length (ks : Nat → Nat) (i : Nat) (l : List Nat) :
    (xorStream ks i l).length = l.length := by
  induction l generalizing i with
  | nil => rfl
  | cons b rest ih => simp [xorStream, ih]

lemma xorStream_xorStream (ks : Nat → Nat) (i : Nat) (l : List Nat) :
    xorStream ks i (xorStream ks i l) = l := by
  induction l generalizing i with
  | nil => rfl
  | cons b rest ih =>
      simp [xorStream, ih, Nat.xor_assoc, Nat.xor_self]

lemma encrypt_length (c : Aes256Gcm) (nonce pt : List Nat) :
    (c.encrypt nonce pt).length = pt.length + 16 := by
  simp [Aes256Gcm.encrypt, xorStream_length, c.tag_len]

lemma decrypt_encrypt (c : Aes256Gcm) (nonce pt : List Nat) :
    c.decrypt nonce (c.encrypt nonce pt) = some pt := by
  have hlen : (c.encrypt nonce pt).length = pt.length + 16 := encrypt_length c nonce pt
  have hct : (xorStream (c.keystream nonce) 0 pt).length = pt.length :=
    xorStream_length _ _ _
  unfold Aes256Gcm.decrypt
  rw [hlen]
  simp only [Nat.le_add_left, if_true, Nat.add_sub_cancel]
  unfold Aes256Gcm.encrypt
  rw [← hct]
  rw [List.take_left, List.drop_left]
  simp [xorStream_xorStream]

/-- C1: decrypting the output of `encrypt_chunk_at_position` with the same
cipher, nonce base and counter via `decrypt_chunk_at_position` succeeds and
returns the original plaintext. -/
theorem C1_encrypt_decrypt_round_trip (cipher : Aes256Gcm) (nonce_base : Nonce)
    (plaintext : List Nat) (counter : Nat) :
    decrypt_chunk_at_position cipher nonce_base
      (encrypt_chunk_at_position cipher nonce_base plaintext counter) counter
      = some plaintext := by
  unfold decrypt_chunk_at_position encrypt_chunk_at_position
  exact decrypt_encrypt _ _ _

/-! ## Error taxonomy (src/common/errors.rs)

Each constructor carries the client-visible message; `Internal` absorbs any
`anyhow::Error` through the `#[from]` conversion, so `anyhow!` failures
inside handlers surface as `Internal` (HTTP 500). -/

inductive AppError
  | Unauthorized (msg : String)
  | NotFound (msg : String)
  | BadRequest (msg : String)
  | Conflict (msg : String)
  | InsufficientStorage (msg : String)
  | Internal (msg : String)
deriving Repr, DecidableEq

/-! ## Session core

The session implementation (`SessionImpl`: token, claim state, cipher) is
not among the provided sources — only its trait (`common/session_trait.rs`),
its callers (`server/auth.rs`, the handlers) and its tests
(`tests/session_tests.rs`) are. The state machine is modelled from the
spec (§3 data model, §4.4), with interior mutability made explicit: each
mutating operation returns the updated session. -/

/-- Modelled from the spec: session claim state,
`Unclaimed | Claimed(client_id) | Completed` (§3); `Completed` keeps the
claiming client so `is_active` can still match it (§4.4). -/
inductive SessionState
  | unclaimed
  | claimed (client_id : String)
  | completed (client_id : String)
deriving Repr, DecidableEq

/-- Modelled from the spec: the core session — bearer token, claim state
and the cipher bound to the session key (§3, §4.4). -/
structure SessionImpl where
  token : String
  state : SessionState
  cipher : Aes256Gcm

/-- Rust's `s.trim().is_empty()`: a trimmed string is empty exactly when
every character is whitespace. -/
def is_blank (s : String) : Bool := s.data.all (fun c => c.isWhitespace)

/-- Modelled from the spec: `claim(token, client_id) → bool` — fails on a
token mismatch or an empty/whitespace-only client id; `Unclaimed`
transitions to `Claimed(client_id)` and returns true; a repeated claim with
the same client id returns true; anything else is rejected (§4.4). -/
def SessionImpl.claim (s : SessionImpl) (token client_id : String) :
    Bool × SessionImpl :=
  if token ≠ s.token ∨ is_blank client_id then (false, s)
  else
    match s.state with
    | .unclaimed => (true, { s with state := .claimed client_id })
    | .claimed cid => (decide (cid = client_id), s)
    | .completed _ => (false, s)

/-- Modelled from the spec: `is_active(token, client_id)` — true iff the
token matches and the state is `Claimed(client_id)`, or `Completed` with a
matching client id (§4.4). -/
def SessionImpl.is_active (s : SessionImpl) (token client_id : String) : Bool :=
  decide (token = s.token) &&
    match s.state with
    | .unclaimed => false
    | .claimed cid => decide (cid = client_id)
    | .completed cid => decide (cid = client_id)

/-- `require_active_session` (src/server/auth.rs:11-25): reject an
empty/whitespace client id, then require `is_active`; both failure paths
build an `anyhow!` error, which converts to `AppError::Internal`. -/
def require_active_session (session : SessionImpl) (token client_id : String) :
    Except AppError Unit :=
  if is_blank client_id then .error (.Internal "Client ID cannot be empty")
  else if !(session.is_active token client_id) then
    .error (.Internal "Invalid or inactive session")
  else .ok ()

/-- `claim_or_validate_session` (src/server/auth.rs:28-44): reject an
empty/whitespace client id, then attempt `claim`; the rejected-claim error
is likewise an `anyhow!`-derived `Internal`. The updated session is
returned explicitly. -/
def claim_or_validate_session (session : SessionImpl) (token client_id : String) :
    Except AppError Unit × SessionImpl :=
  if is_blank client_id then
    (.error (.Internal "Client ID cannot be empty"), session)
  else
    let r := session.claim token client_id
    if r.1 then (.ok (), r.2)
    else
      (.error (.Internal "Invalid token or session already claimed by another client"),
       r.2)

/-- Apply a sequence of `claim` calls (token, client id pairs) in order. -/
def runClaims (s : SessionImpl) : List (String × String) → SessionImpl
  | [] => s
  | (t, c) :: rest => runClaims (s.claim t c).2 rest

/-- The client id bound to the session, if any. -/
def SessionState.owner : SessionState → Option String
  | .unclaimed => none
  | .claimed cid => some cid
  | .completed cid => some cid

lemma claim_owner_stable (s : SessionImpl) (t c x : String)
    (h : s.state.owner = some x) : (s.claim t c).2.state.owner = some x := by
  unfold SessionImpl.claim
  split
  · exact h
  · cases hs : s.state <;> simp [hs, SessionState.owner] at h ⊢ <;> simp [h]

lemma runClaims_owner_stable (s : SessionImpl) (l : List (String × String))
    (x : String) (h : s.state.owner = some x) :
    (runClaims s l).state.owner = some x := by
  induction l generalizing s with
  | nil => exact h
  | cons p rest ih =>
      cases p with
      | mk t c => exact ih _ (claim_owner_stable s t c x h)

lemma is_active_owner (s : SessionImpl) (token cid : String)
    (h : s.is_active token cid = true) : s.state.owner = some cid := by
  unfold SessionImpl.is_active at h
  cases hs : s.state <;> rw [hs] at h <;> simp at h <;>
    simp [SessionState.owner, h.2]

/-- C2: `claim` fails on token mismatch or empty/whitespace client id;
`claim_or_validate_session` succeeds exactly when `claim` does and applies
the same state change; an unclaimed session is claimed by the first valid
claim; on a claimed session the same client id succeeds and any other
client id fails, unchanged; and across any sequence of claim calls at most
one client id ever satisfies `is_active` for a given token. -/
theorem C2_claim_state_machine (s : SessionImpl) (token client_id : String) :
    ((token ≠ s.token ∨ is_blank client_id) →
        s.claim token client_id = (false, s))
    ∧ ((claim_or_validate_session s token client_id).1.isOk
          = (s.claim token client_id).1
        ∧ (claim_or_validate_session s token client_id).2
          = (s.claim token client_id).2)
    ∧ (s.state = .unclaimed → token = s.token → is_blank client_id = false →
        s.claim token client_id = (true, { s with state := .claimed client_id }))
    ∧ (∀ cid, s.state = .claimed cid → token = s.token →
        s.claim token client_id
          = ((!is_blank client_id && decide (cid = client_id)), s))
    ∧ (∀ l₁ l₂ tok a b, (runClaims s l₁).is_active tok a = true →
        (runClaims (runClaims s l₁) l₂).is_active tok b = true → a = b) := by
  refine ⟨?_, ?_, ?_, ?_, ?_⟩
  · intro h
    unfold SessionImpl.claim
    rcases h with h | h
    · simp [h]
    · simp [h]
  · unfold claim_or_validate_session
    by_cases hc : is_blank client_id
    · have hclaim : s.claim token client_id = (false, s) := by
        unfold SessionImpl.claim; simp [hc]
      simp [hc, hclaim, Except.isOk, Except.toBool]
    · simp only [hc, Bool.false_eq_true, if_false]
      cases hr : (s.claim token client_id).1 <;> simp [hr, Except.isOk, Except.toBool]
  · intro hu ht hc
    unfold SessionImpl.claim
    simp [ht, hc, hu]
  · intro cid hcl ht
    unfold SessionImpl.claim
    by_cases hc : is_blank client_id
    · simp [hc, hcl]
    · simp [ht, hc, hcl]
  · intro l₁ l₂ tok a b ha hb
    have h₁ : (runClaims s l₁).state.owner = some a := is_active_owner _ _ _ ha
    have h₂ : (runClaims (runClaims s l₁) l₂).state.owner = some a :=
      runClaims_owner_stable _ _ _ h₁
    have h₃ : (runClaims (runClaims s l₁) l₂).state.owner = some b :=
      is_active_owner _ _ _ hb
    rw [h₂] at h₃
    exact Option.some.inj h₃

/-- A trivial concrete cipher used to instantiate witnesses. -/
def zeroCipher : Aes256Gcm where
  keystream := fun _ _ => 0
  tag := fun _ _ => List.replicate 16 0
  tag_len := fun _ _ => List.length_replicate 16 0

/-- C2 witness: on a fresh session with token "tok", "alice" claims
successfully, a repeated claim by "alice" succeeds, a claim by "bob" fails,
and a wrong token fails. -/
theorem C2_claim_state_machine_witness :
    (SessionImpl.claim ⟨"tok", .unclaimed, zeroCipher⟩ "tok" "alice").1 = true
    ∧ (SessionImpl.claim ⟨"tok", .claimed "alice", zeroCipher⟩ "tok" "alice").1 = true
    ∧ (SessionImpl.claim ⟨"tok", .claimed "alice", zeroCipher⟩ "tok" "bob").1 = false
    ∧ (SessionImpl.claim ⟨"tok", .claimed "alice", zeroCipher⟩ "bad" "alice").1 = false := by
  refine ⟨?_, ?_, ?_, ?_⟩
  · have h := (C2_claim_state_machine ⟨"tok", .unclaimed, zeroCipher⟩ "tok" "alice").2.2.1
      rfl rfl (by decide)
    rw [h]
  · have h := ((C2_claim_state_machine ⟨"tok", .claimed "alice", zeroCipher⟩ "tok"
      "alice").2.2.2.1) "alice" rfl rfl
    rw [h]
    decide
  · have h := ((C2_claim_state_machine ⟨"tok", .claimed "alice", zeroCipher⟩ "tok"
      "bob").2.2.2.1) "alice" rfl rfl
    rw [h]
    decide
  · have h := (C2_claim_state_machine ⟨"tok", .claimed "alice", zeroCipher⟩ "bad"
      "alice").1 (by left; decide)
    rw [h]

/-! ## Transfer configuration and manifest (src/common/config.rs; manifest
modelled from the spec)

`common/manifest.rs` (the `FileEntry`/`Manifest` types and the chunk math)
is not among the provided sources; fields and operations are modelled from
the spec (§3) and the uses in the handlers and tests. -/

/-- `TransferConfig` (src/common/config.rs). -/
structure TransferConfig where
  chunk_size : Nat
  concurrency : Nat
deriving Repr, DecidableEq

/-- `TransferConfig::local()` — 10 MiB chunks, concurrency 8
(`local` is a Lean keyword, hence the suffixed name). -/
def TransferConfig.local_mode : TransferConfig :=
  { chunk_size := 10 * 1024 * 1024, concurrency := 8 }

/-- `TransferConfig::tunnel()` — 1 MiB chunks, concurrency 2. -/
def TransferConfig.tunnel_mode : TransferConfig :=
  { chunk_size := 1024 * 1024, concurrency := 2 }

/-- Modelled from the spec: one manifest entry — index, name, full local
path, size in bytes, and the per-file nonce base as transmitted (base64
string, decoded by the handler) (§3; fields as used in
src/send/handlers.rs). -/
structure FileEntry where
  index : Nat
  name : String
  full_path : String
  size : Nat
  nonce : String
deriving Repr, DecidableEq

/-- Modelled from the spec: the manifest — ordered file list plus transfer
settings (§3). -/
structure Manifest where
  files : List FileEntry
  config : TransferConfig
deriving Repr, DecidableEq

/-- Modelled from the spec: `Manifest::total_chunks(chunk_size)` — total
chunks per file is `⌈size / chunk_size⌉`, summed across files (§3;
`div_ceil` as in src/send/handlers.rs:48). -/
def Manifest.total_chunks (m : Manifest) (chunk_size : Nat) : Nat :=
  (m.files.map (fun f => (f.size + chunk_size - 1) / chunk_size)).sum

/-! ## File handle registry (send side)

`send/file_handle.rs` is not among the provided sources. A handle is
modelled from the spec (§4.3) as the byte content of the opened file;
`read_at` fills exactly `len` bytes or fails. The filesystem is an explicit
map from paths to file contents. -/

/-- Modelled from the spec: a shared positioned-read handle — the bytes of
the opened file (§4.3). -/
structure SendFileHandle where
  data : List Nat
deriving Repr, DecidableEq

/-- Modelled from the spec: `SendFileHandle::open(path, expected_size)`
(§4.3); fails when the path cannot be opened. -/
def SendFileHandle.open (fs : String → Option (List Nat)) (path : String)
    (_expected_size : Nat) : Except String SendFileHandle :=
  match fs path with
  | some bytes => .ok ⟨bytes⟩
  | none => .error "failed to open file"

/-- Modelled from the spec: `read_chunk(start, len, dst)` — positioned read
that must fill exactly `len` bytes or fail (§4.3); the destination buffer
comes from the pool with length 0, so its content is exactly the bytes
read. -/
def SendFileHandle.read_chunk (h : SendFileHandle) (start len : Nat) :
    Except String (List Nat) :=
  if start + len ≤ h.data.length then .ok ((h.data.drop start).take len)
  else .error "short read"

/-! ## Per-file progress tracker used by the send handlers

The `ProgressTracker` the send handlers call (`increment_file`,
src/send/handlers.rs:77) is a newer revision than the one in
src/server/progress.rs; it is modelled from the spec (§4.7) as the list of
per-file progress increments it has observed (newest first), which is what
the dedup claims constrain. -/

/-- Modelled from the spec: per-file progress observer — records each
`increment_file(file_index)` call (§4.7). -/
structure FileProgressTracker where
  events : List Nat
deriving Repr, DecidableEq

/-- Modelled from the spec: `increment_file` advances the per-file progress
count by one (§4.5 step 4). -/
def FileProgressTracker.increment_file (p : FileProgressTracker)
    (file_index : Nat) : FileProgressTracker :=
  ⟨file_index :: p.events⟩

/-! ## Send state (src/send/state.rs) -/

/-- `SendAppStateInner` (src/send/state.rs:21-31): session, manifest,
progress, lazy file-handle registry, settings, the atomic sent counter, the
dedup set, and the expected total. The buffer pool is not threaded through
because pooled buffers are handed to `read_chunk` with length 0 and their
storage reuse never changes response bytes; it is verified on its own
below. -/
structure SendAppState where
  session : SessionImpl
  manifest : Manifest
  progress : FileProgressTracker
  file_handles : List (Nat × SendFileHandle)
  config : TransferConfig
  chunks_sent : Nat
  sent_chunks : List (Nat × Nat)
  total_chunks : Nat

/-- `manifest()` (src/send/state.rs:70-72). -/
def SendAppState.get_manifest (s : SendAppState) : Manifest := s.manifest

/-- `get_file` (src/send/state.rs:75-77): bounds-safe manifest lookup. -/
def SendAppState.get_file (s : SendAppState) (index : Nat) : Option FileEntry :=
  s.manifest.files.get? index

/-- `increment_sent_chunk` (src/send/state.rs:80-84): atomic increment,
returning `(sent, total)` and the updated state. -/
def SendAppState.increment_sent_chunk (s : SendAppState) :
    (Nat × Nat) × SendAppState :=
  let new_count := s.chunks_sent + 1
  let total := s.total_chunks
  ((new_count, total), { s with chunks_sent := new_count })

/-- `has_chunk_been_sent` (src/send/state.rs:87-89). -/
def SendAppState.has_chunk_been_sent (s : SendAppState)
    (file_index chunk_index : Nat) : Bool :=
  s.sent_chunks.contains (file_index, chunk_index)

/-- `mark_chunk_sent` (src/send/state.rs:92-96): insert into the dedup
map; true iff newly inserted. -/
def SendAppState.mark_chunk_sent (s : SendAppState)
    (file_index chunk_index : Nat) : Bool × SendAppState :=
  if s.sent_chunks.contains (file_index, chunk_index) then (false, s)
  else (true, { s with sent_chunks := (file_index, chunk_index) :: s.sent_chunks })

/-- `unique_chunks_sent` (src/send/state.rs:99-101). -/
def SendAppState.unique_chunks_sent (s : SendAppState) : Nat :=
  s.sent_chunks.length

/-- `get_chunks_sent` (src/send/state.rs:104-106). -/
def SendAppState.get_chunks_sent (s : SendAppState) : Nat := s.chunks_sent

/-- `get_total_chunks` (src/send/state.rs:109-111). -/
def SendAppState.get_total_chunks (s : SendAppState) : Nat := s.total_chunks

/-! ## Base64 nonce decoding

`Nonce::from_base64` (crypto/types.rs, missing from the sources) is
modelled from the spec as a standard base64 decoder for the manifest's
nonce string. -/

/-- Modelled from the spec: value of one character of the standard base64
alphabet. -/
def base64_char_val (c : Char) : Option Nat :=
  if 'A' ≤ c ∧ c ≤ 'Z' then some (c.toNat - 'A'.toNat)
  else if 'a' ≤ c ∧ c ≤ 'z' then some (c.toNat - 'a'.toNat + 26)
  else if '0' ≤ c ∧ c ≤ '9' then some (c.toNat - '0'.toNat + 52)
  else if c = '+' then some 62
  else if c = '/' then some 63
  else none

/-- Modelled from the spec: decode base64 four characters at a time,
honouring trailing `=` padding. -/
def base64_decode_groups : List Char → Option (List Nat)
  | [] => some []
  | a :: b :: c :: d :: rest => do
      let va ← base64_char_val a
      let vb ← base64_char_val b
      if c = '=' then
        if d = '=' ∧ rest = [] then some [va * 4 + vb / 16] else none
      else do
        let vc ← base64_char_val c
        if d = '=' then
          if rest = [] then some [va * 4 + vb / 16, vb % 16 * 16 + vc / 4]
          else none
        else do
          let vd ← base64_char_val d
          let tail ← base64_decode_groups rest
          some ([va * 4 + vb / 16, vb % 16 * 16 + vc / 4, vc % 4 * 64 + vd] ++ tail)
  | _ => none

/-- Modelled from the spec: `Nonce::from_base64` — decode the manifest's
base64 nonce string. -/
def Nonce.from_base64 (s : String) : Except String Nonce :=
  match base64_decode_groups s.data with
  | some bytes => .ok ⟨bytes⟩
  | none => .error "invalid nonce base64"

/-- Modelled from the spec: `encrypt_chunk_in_place` — the in-place variant
of the seal, growing the buffer by the 16-byte tag (§4.1); byte-for-byte
the same ciphertext as the out-of-place variant. -/
def encrypt_chunk_in_place (cipher : Aes256Gcm) (nonce : Nonce)
    (buffer : List Nat) (counter : Nat) : List Nat :=
  cipher.encrypt (nonce.with_counter counter) buffer

/-! ## Send handlers (src/send/handlers.rs) -/

/-- `process_chunk` (src/send/handlers.rs:111-168): bounds-check the chunk
start against the file size, compute the chunk window, read it, decode the
file nonce, and seal with the chunk index as counter. The `u64` arithmetic
is wrapping (release mode): `start = chunk_index as u64 * chunk_size`,
`start + chunk_size` and `end - start` all reduce modulo `2 ^ 64`
(`(stop + 2 ^ 64 - start) % 2 ^ 64` is `u64` wrapping subtraction), and
`chunk_index as u32` truncates modulo `2 ^ 32`. Errors are `anyhow!`
strings. -/
def process_chunk (file_handle : SendFileHandle) (chunk_index : Nat)
    (cipher : Aes256Gcm) (chunk_size : Nat) (file_size : Nat)
    (nonce_str : String) : Except String (List Nat) :=
  let start := chunk_index * chunk_size % 2 ^ 64
  if file_size ≤ start then
    .error ("Chunk start " ++ toString start ++ " exceeds file size "
      ++ toString file_size)
  else
    let stop := min ((start + chunk_size) % 2 ^ 64) file_size
    let chunk_len := (stop + 2 ^ 64 - start) % 2 ^ 64
    match file_handle.read_chunk start chunk_len with
    | .error e => .error e
    | .ok buffer =>
      match Nonce.from_base64 nonce_str with
      | .error e => .error e
      | .ok file_nonce =>
          .ok (encrypt_chunk_in_place cipher file_nonce buffer
            (chunk_index % 2 ^ 32))

/-- The `file_handles.entry(i).or_try_insert_with(SendFileHandle::open)`
step of `send_handler` (src/send/handlers.rs:80-91): reuse the registered
handle or lazily open and register one. -/
def get_or_open_handle (fs : String → Option (List Nat))
    (handles : List (Nat × SendFileHandle)) (file_index : Nat)
    (file_entry : FileEntry) :
    Except String (SendFileHandle × List (Nat × SendFileHandle)) :=
  match handles.lookup file_index with
  | some h => .ok (h, handles)
  | none =>
    match SendFileHandle.open fs file_entry.full_path file_entry.size with
    | .ok h => .ok (h, (file_index, h) :: handles)
    | .error e => .error e

/-- `send_handler` (src/send/handlers.rs:59-108): authenticate, look up the
file entry (`BadRequest` when out of bounds), mark the dedup set and bump
per-file progress only on a first request, lazily open the file handle, and
serve the encrypted chunk. `anyhow` failures surface as
`AppError::Internal`. The filesystem `fs` models the disk; the updated
state is returned alongside the response. -/
def send_handler (fs : String → Option (List Nat)) (token lock_token : String)
    (file_index chunk_index : Nat) (state : SendAppState) :
    Except AppError (List Nat) × SendAppState :=
  match require_active_session state.session token lock_token with
  | .error e => (.error e, state)
  | .ok _ =>
    match state.get_file file_index with
    | none =>
        (.error (.BadRequest ("file_index out of bounds: " ++ toString file_index)),
         state)
    | some file_entry =>
      let chunk_size := state.config.chunk_size
      let is_retry := state.has_chunk_been_sent file_index chunk_index
      let state1 :=
        if is_retry then state
        else
          let marked := (state.mark_chunk_sent file_index chunk_index).2
          { marked with progress := marked.progress.increment_file file_index }
      match get_or_open_handle fs state1.file_handles file_index file_entry with
      | .error e => (.error (.Internal e), state1)
      | .ok (file_handle, handles') =>
        let state2 := { state1 with file_handles := handles' }
        match process_chunk file_handle chunk_index state.session.cipher
            chunk_size file_entry.size file_entry.nonce with
        | .error e => (.error (.Internal e), state2)
        | .ok encrypted_bytes => (.ok encrypted_bytes, state2)

/-- The dedup step of `send_handler` (src/send/handlers.rs:74-78), as a
standalone function of the state: mark the pair and bump per-file progress
unless it was already sent. -/
def dedup_step (s : SendAppState) (file_index chunk_index : Nat) : SendAppState :=
  if s.has_chunk_been_sent file_index chunk_index then s
  else
    let marked := (s.mark_chunk_sent file_index chunk_index).2
    { marked with progress := marked.progress.increment_file file_index }

lemma dedup_step_frame (s : SendAppState) (i j : Nat) :
    (dedup_step s i j).session = s.session
    ∧ (dedup_step s i j).manifest = s.manifest
    ∧ (dedup_step s i j).config = s.config
    ∧ (dedup_step s i j).chunks_sent = s.chunks_sent
    ∧ (dedup_step s i j).total_chunks = s.total_chunks
    ∧ (dedup_step s i j).file_handles = s.file_handles := by
  unfold dedup_step SendAppState.mark_chunk_sent
  split
  · exact ⟨rfl, rfl, rfl, rfl, rfl, rfl⟩
  · next h =>
      have hc : ¬ ((i, j) ∈ s.sent_chunks) := by
        simpa [SendAppState.has_chunk_been_sent] using h
      simp [hc]

lemma dedup_step_retry (s : SendAppState) (i j : Nat)
    (h : s.has_chunk_been_sent i j = true) : dedup_step s i j = s := by
  unfold dedup_step
  simp [h]

lemma dedup_step_has (s : SendAppState) (i j : Nat) :
    (dedup_step s i j).has_chunk_been_sent i j = true := by
  unfold dedup_step
  by_cases h : s.has_chunk_been_sent i j
  · simp [h]
  · have hc : ¬ ((i, j) ∈ s.sent_chunks) := by
      simpa [SendAppState.has_chunk_been_sent] using h
    simp [h, SendAppState.mark_chunk_sent, hc, SendAppState.has_chunk_been_sent]

lemma send_handler_auth_error (fs : String → Option (List Nat))
    (token lock_token : String) (i j : Nat) (s : SendAppState) (e : AppError)
    (he : require_active_session s.session token lock_token = .error e) :
    send_handler fs token lock_token i j s = (.error e, s) := by
  unfold send_handler
  rw [he]

lemma send_handler_no_file (fs : String → Option (List Nat))
    (token lock_token : String) (i j : Nat) (s : SendAppState)
    (hauth : require_active_session s.session token lock_token = .ok ())
    (hf : s.get_file i = none) :
    send_handler fs token lock_token i j s
      = (.error (.BadRequest ("file_index out of bounds: " ++ toString i)), s) := by
  unfold send_handler
  rw [hauth, hf]

lemma send_handler_some (fs : String → Option (List Nat))
    (token lock_token : String) (i j : Nat) (s : SendAppState) (fe : FileEntry)
    (hauth : require_active_session s.session token lock_token = .ok ())
    (hf : s.get_file i = some fe) :
    send_handler fs token lock_token i j s
      = match get_or_open_handle fs (dedup_step s i j).file_handles i fe with
        | .error e => (.error (.Internal e), dedup_step s i j)
        | .ok (hd, handles') =>
          match process_chunk hd j s.session.cipher s.config.chunk_size
              fe.size fe.nonce with
          | .error e =>
              (.error (.Internal e), { dedup_step s i j with file_handles := handles' })
          | .ok b => (.ok b, { dedup_step s i j with file_handles := handles' }) := by
  unfold send_handler dedup_step
  rw [hauth, hf]

lemma get_or_open_handle_idem (fs : String → Option (List Nat))
    (hs hs' : List (Nat × SendFileHandle)) (i : Nat) (fe : FileEntry)
    (hd : SendFileHandle)
    (hgo : get_or_open_handle fs hs i fe = .ok (hd, hs')) :
    hs'.lookup i = some hd ∧ get_or_open_handle fs hs' i fe = .ok (hd, hs') := by
  unfold get_or_open_handle at hgo
  cases hl : hs.lookup i with
  | some h0 =>
      rw [hl] at hgo
      obtain ⟨h1, h2⟩ : h0 = hd ∧ hs = hs' := by
        constructor <;> [exact congrArg Prod.fst (Except.ok.inj hgo);
          exact congrArg Prod.snd (Except.ok.inj hgo)]
      subst h1; subst h2
      refine ⟨hl, ?_⟩
      unfold get_or_open_handle
      rw [hl]
  | none =>
      rw [hl] at hgo
      cases ho : SendFileHandle.open fs fe.full_path fe.size with
      | error e => rw [ho] at hgo; exact absurd hgo (by simp)
      | ok h1 =>
          rw [ho] at hgo
          obtain ⟨h2, h3⟩ : h1 = hd ∧ (i, h1) :: hs = hs' := by
            constructor <;> [exact congrArg Prod.fst (Except.ok.inj hgo);
              exact congrArg Prod.snd (Except.ok.inj hgo)]
          subst h2
          have hlk : hs'.lookup i = some h1 := by
            rw [← h3]; simp [List.lookup]
          refine ⟨hlk, ?_⟩
          unfold get_or_open_handle
          rw [hlk]

lemma send_handler_state_frame (fs : String → Option (List Nat))
    (token lock_token : String) (i j : Nat) (s : SendAppState) :
    (send_handler fs token lock_token i j s).2.chunks_sent = s.chunks_sent
    ∧ (send_handler fs token lock_token i j s).2.session = s.session
    ∧ (send_handler fs token lock_token i j s).2.manifest = s.manifest
    ∧ (send_handler fs token lock_token i j s).2.config = s.config
    ∧ (send_handler fs token lock_token i j s).2.total_chunks = s.total_chunks := by
  cases hauth : require_active_session s.session token lock_token with
  | error e => simp [send_handler_auth_error fs token lock_token i j s e hauth]
  | ok u =>
      cases u
      cases hf : s.get_file i with
      | none => simp [send_handler_no_file fs token lock_token i j s hauth hf]
      | some fe =>
          rw [send_handler_some fs token lock_token i j s fe hauth hf]
          obtain ⟨h1, h2, h3, h4, h5, h6⟩ := dedup_step_frame s i j
          cases hgo : get_or_open_handle fs (dedup_step s i j).file_handles i fe with
          | error e => simp [h1, h2, h3, h4, h5]
          | ok pr =>
              cases pr with
              | mk hd handles' =>
                  cases hp : process_chunk hd j s.session.cipher s.config.chunk_size
                      fe.size fe.nonce with
                  | error e => simp [hp, h1, h2, h3, h4, h5]
                  | ok b => simp [hp, h1, h2, h3, h4, h5]

lemma send_handler_retry_state (fs : String → Option (List Nat))
    (token lock_token : String) (i j : Nat) (s : SendAppState)
    (h : s.has_chunk_been_sent i j = true) :
    (send_handler fs token lock_token i j s).2.progress = s.progress
    ∧ (send_handler fs token lock_token i j s).2.sent_chunks = s.sent_chunks := by
  cases hauth : require_active_session s.session token lock_token with
  | error e => simp [send_handler_auth_error fs token lock_token i j s e hauth]
  | ok u =>
      cases u
      cases hf : s.get_file i with
      | none => simp [send_handler_no_file fs token lock_token i j s hauth hf]
      | some fe =>
          rw [send_handler_some fs token lock_token i j s fe hauth hf,
            dedup_step_retry s i j h]
          cases hgo : get_or_open_handle fs s.file_handles i fe with
          | error e => simp
          | ok pr =>
              cases pr with
              | mk hd handles' =>
                  cases hp : process_chunk hd j s.session.cipher s.config.chunk_size
                      fe.size fe.nonce with
                  | error e => simp [hp]
                  | ok b => simp [hp]

lemma send_handler_marks (fs : String → Option (List Nat))
    (token lock_token : String) (i j : Nat) (s : SendAppState) (fe : FileEntry)
    (hauth : require_active_session s.session token lock_token = .ok ())
    (hf : s.get_file i = some fe) :
    (send_handler fs token lock_token i j s).2.has_chunk_been_sent i j = true := by
  rw [send_handler_some fs token lock_token i j s fe hauth hf]
  cases hgo : get_or_open_handle fs (dedup_step s i j).file_handles i fe with
  | error e => simpa using dedup_step_has s i j
  | ok pr =>
      cases pr with
      | mk hd handles' =>
          cases hp : process_chunk hd j s.session.cipher s.config.chunk_size
              fe.size fe.nonce with
          | error e =>
              simpa [hp, SendAppState.has_chunk_been_sent] using dedup_step_has s i j
          | ok b =>
              simpa [hp, SendAppState.has_chunk_been_sent] using dedup_step_has s i j

/-- C3: `mark_chunk_sent` returns true exactly on the first call for a
pair, marking is idempotent on the dedup set, a request for an already-sent
pair changes neither the `chunks_sent` counter nor the progress events, and
a served request records the pair. -/
theorem C3_dedup_monotone (s : SendAppState) (i j : Nat)
    (fs : String → Option (List Nat)) (token lock_token : String) :
    ((s.mark_chunk_sent i j).1 = !(s.has_chunk_been_sent i j))
    ∧ ((s.mark_chunk_sent i j).2.has_chunk_been_sent i j = true)
    ∧ (((s.mark_chunk_sent i j).2.mark_chunk_sent i j).1 = false
       ∧ ((s.mark_chunk_sent i j).2.mark_chunk_sent i j).2 = (s.mark_chunk_sent i j).2)
    ∧ (s.has_chunk_been_sent i j = true →
        ((send_handler fs token lock_token i j s).2.chunks_sent = s.chunks_sent
         ∧ (send_handler fs token lock_token i j s).2.progress = s.progress))
    ∧ (require_active_session s.session token lock_token = .ok () →
        ∀ f, s.get_file i = some f →
          (send_handler fs token lock_token i j s).2.has_chunk_been_sent i j
            = true) := by
  refine ⟨?_, ?_, ⟨?_, ?_⟩, ?_, ?_⟩
  · by_cases hc : (i, j) ∈ s.sent_chunks <;>
      simp [SendAppState.mark_chunk_sent, SendAppState.has_chunk_been_sent, hc]
  · by_cases hc : (i, j) ∈ s.sent_chunks <;>
      simp [SendAppState.mark_chunk_sent, SendAppState.has_chunk_been_sent, hc]
  · by_cases hc : (i, j) ∈ s.sent_chunks <;>
      simp [SendAppState.mark_chunk_sent, SendAppState.has_chunk_been_sent, hc]
  · by_cases hc : (i, j) ∈ s.sent_chunks <;>
      simp [SendAppState.mark_chunk_sent, SendAppState.has_chunk_been_sent, hc]
  · intro h
    exact ⟨(send_handler_state_frame fs token lock_token i j s).1,
      (send_handler_retry_state fs token lock_token i j s h).1⟩
  · intro hauth f hf
    exact send_handler_marks fs token lock_token i j s f hauth hf

/-- Sample filesystem used by concrete witnesses: one 3-byte file at
path "a". -/
def sampleFs : String → Option (List Nat) :=
  fun p => if p = "a" then some [1, 2, 3] else none

/-- Sample manifest entry: 3-byte file, chunk size 2, zero nonce base. -/
def sampleEntry : FileEntry :=
  { index := 0, name := "a.bin", full_path := "a", size := 3,
    nonce := "AAAAAAAAAAA=" }

/-- Sample send state on an active (claimed) session with chunk `(0,0)`
already sent. -/
def sampleState : SendAppState :=
  { session := ⟨"tok", .claimed "cid", zeroCipher⟩
  , manifest := ⟨[sampleEntry], ⟨2, 1⟩⟩
  , progress := ⟨[]⟩
  , file_handles := []
  , config := ⟨2, 1⟩
  , chunks_sent := 0
  , sent_chunks := [(0, 0)]
  , total_chunks := 2 }

/-- C3 witness: on the sample state, a repeated request for the
already-sent chunk `(0,0)` leaves the counter and progress unchanged and
the pair stays recorded. -/
theorem C3_dedup_monotone_witness :
    sampleState.has_chunk_been_sent 0 0 = true
    ∧ (send_handler sampleFs "tok" "cid" 0 0 sampleState).2.chunks_sent
        = sampleState.chunks_sent
    ∧ (send_handler sampleFs "tok" "cid" 0 0 sampleState).2.progress
        = sampleState.progress
    ∧ (send_handler sampleFs "tok" "cid" 0 0 sampleState).2.has_chunk_been_sent 0 0
        = true := by
  have h := C3_dedup_monotone sampleState 0 0 sampleFs "tok" "cid"
  have hhas : sampleState.has_chunk_been_sent 0 0 = true := by decide
  refine ⟨hhas, (h.2.2.2.1 hhas).1, (h.2.2.2.1 hhas).2, ?_⟩
  exact h.2.2.2.2 rfl sampleEntry rfl

lemma send_handler_handles (fs : String → Option (List Nat))
    (token lock_token : String) (i j : Nat) (s : SendAppState) (fe : FileEntry)
    (hauth : require_active_session s.session token lock_token = .ok ())
    (hf : s.get_file i = some fe) :
    (send_handler fs token lock_token i j s).2.file_handles
      = match get_or_open_handle fs s.file_handles i fe with
        | .error _ => s.file_handles
        | .ok (_, handles') => handles' := by
  rw [send_handler_some fs token lock_token i j s fe hauth hf]
  obtain ⟨d1, d2, d3, d4, d5, d6⟩ := dedup_step_frame s i j
  rw [d6]
  cases hgo : get_or_open_handle fs s.file_handles i fe with
  | error e => simpa using d6
  | ok pr =>
      cases pr with
      | mk hd handles' =>
          cases hp : process_chunk hd j s.session.cipher s.config.chunk_size
              fe.size fe.nonce with
          | error e => simp [hp]
          | ok b => simp [hp]

lemma send_handler_result_eq (fs : String → Option (List Nat))
    (token lock_token : String) (i j : Nat) (s s' : SendAppState)
    (hsess : s'.session = s.session) (hman : s'.manifest = s.manifest)
    (hcfg : s'.config = s.config)
    (hhand : ∀ fe, s.get_file i = some fe →
      (get_or_open_handle fs s'.file_handles i fe).map Prod.fst
        = (get_or_open_handle fs s.file_handles i fe).map Prod.fst) :
    (send_handler fs token lock_token i j s').1
      = (send_handler fs token lock_token i j s).1 := by
  cases hauth : require_active_session s.session token lock_token with
  | error e =>
      have hauth' : require_active_session s'.session token lock_token = .error e := by
        rw [hsess, hauth]
      rw [send_handler_auth_error fs token lock_token i j s e hauth,
        send_handler_auth_error fs token lock_token i j s' e hauth']
  | ok u =>
      cases u
      have hauth' : require_active_session s'.session token lock_token = .ok () := by
        rw [hsess, hauth]
      have hget : ∀ o, s.get_file i = o → s'.get_file i = o := by
        intro o ho
        unfold SendAppState.get_file at ho ⊢
        rw [hman]
        exact ho
      cases hf : s.get_file i with
      | none =>
          rw [send_handler_no_file fs token lock_token i j s hauth hf,
            send_handler_no_file fs token lock_token i j s' hauth' (hget _ hf)]
      | some fe =>
          rw [send_handler_some fs token lock_token i j s fe hauth hf,
            send_handler_some fs token lock_token i j s' fe hauth' (hget _ hf)]
          rw [(dedup_step_frame s i j).2.2.2.2.2, (dedup_step_frame s' i j).2.2.2.2.2]
          have hh := hhand fe hf
          cases hgo : get_or_open_handle fs s.file_handles i fe with
          | error e =>
              rw [hgo] at hh
              have hgo' : get_or_open_handle fs s'.file_handles i fe = .error e := by
                cases hx : get_or_open_handle fs s'.file_handles i fe with
                | error e2 => rw [hx] at hh; simpa [Except.map] using hh
                | ok pr => rw [hx] at hh; simp [Except.map] at hh
              rw [hgo']
          | ok pr =>
              cases pr with
              | mk hd handles' =>
                  rw [hgo] at hh
                  cases hx : get_or_open_handle fs s'.file_handles i fe with
                  | error e2 => rw [hx] at hh; simp [Except.map] at hh
                  | ok pr2 =>
                      cases pr2 with
                      | mk hd2 handles2' =>
                          rw [hx] at hh
                          have hhd : hd2 = hd := by simpa [Except.map] using hh
                          subst hhd
                          rw [hsess, hcfg]
                          cases hp : process_chunk hd2 j s.session.cipher
                              s.config.chunk_size fe.size fe.nonce with
                          | error e => simp [hp]
                          | ok b => simp [hp]

/-- C4: serving the same chunk request twice in a row produces identical
responses (in particular byte-identical ciphertexts): the response is a
deterministic function of the file bytes, cipher, nonce and indices, and
the handler's state changes never alter it. -/
theorem C4_identical_retry_ciphertext (fs : String → Option (List Nat))
    (token lock_token : String) (i j : Nat) (s : SendAppState) :
    (send_handler fs token lock_token i j
        ((send_handler fs token lock_token i j s).2)).1
      = (send_handler fs token lock_token i j s).1 := by
  cases hauth : require_active_session s.session token lock_token with
  | error e =>
      have h1 := send_handler_auth_error fs token lock_token i j s e hauth
      simp [h1]
  | ok u =>
      cases u
      cases hf : s.get_file i with
      | none =>
          have h1 := send_handler_no_file fs token lock_token i j s hauth hf
          simp [h1]
      | some fe =>
          obtain ⟨g1, g2, g3, g4, g5⟩ := send_handler_state_frame fs token lock_token i j s
          refine send_handler_result_eq fs token lock_token i j s _ g2 g3 g4 ?_
          intro fe2 hf2
          have hfe2 : fe2 = fe := by
            rw [hf] at hf2
            exact (Option.some.inj hf2).symm
          subst hfe2
          rw [send_handler_handles fs token lock_token i j s fe2 hauth hf]
          cases hgo : get_or_open_handle fs s.file_handles i fe2 with
          | error e => simp [hgo]
          | ok pr =>
              cases pr with
              | mk hd handles' =>
                  have hidem := get_or_open_handle_idem fs s.file_handles handles'
                    i fe2 hd hgo
                  simp [hidem.2, hgo]

/-- Whether a handler response is an `Internal` (HTTP 500) error. -/
def is_internal_error : Except AppError (List Nat) → Bool
  | .error (.Internal _) => true
  | _ => false

/-- C5 (amended): on an active session, a `file_index` out of bounds fails
with `BadRequest`, as claimed. The chunk start is the wrapping `u64`
product `chunk_index as u64 * chunk_size`, i.e.
`start = chunk_j * chunk_size % 2 ^ 64`; when that wrapped start is at or
past the file size the request fails with an `Internal` error (the
`anyhow!` bounds error of `process_chunk` converts to
`AppError::Internal`, HTTP 500), not with
`BadRequest("chunk out of range")` — when the file handle resolves, the
message is `Chunk start {start} exceeds file size {size}`. (When the
product wraps below the file size the bounds check passes and the chunk is
served; see the witness.) -/
theorem C5_bounds_error_kinds (fs : String → Option (List Nat))
    (token lock_token : String) (i j : Nat) (s : SendAppState)
    (hauth : require_active_session s.session token lock_token = .ok ()) :
    (s.get_file i = none →
      (send_handler fs token lock_token i j s).1
        = .error (.BadRequest ("file_index out of bounds: " ++ toString i)))
    ∧ (∀ f hd handles', s.get_file i = some f →
        get_or_open_handle fs s.file_handles i f = .ok (hd, handles') →
        f.size ≤ j * s.config.chunk_size % 2 ^ 64 →
        (send_handler fs token lock_token i j s).1
          = .error (.Internal
              ("Chunk start " ++ toString (j * s.config.chunk_size % 2 ^ 64)
                ++ " exceeds file size " ++ toString f.size)))
    ∧ (∀ f, s.get_file i = some f → f.size ≤ j * s.config.chunk_size % 2 ^ 64 →
        is_internal_error (send_handler fs token lock_token i j s).1 = true) := by
  have hpc : ∀ hd f, f.size ≤ j * s.config.chunk_size % 2 ^ 64 →
      process_chunk hd j s.session.cipher s.config.chunk_size f.size
          ((f : FileEntry)).nonce
        = .error ("Chunk start " ++ toString (j * s.config.chunk_size % 2 ^ 64)
            ++ " exceeds file size " ++ toString f.size) := by
    intro hd f hsize
    unfold process_chunk
    rw [if_pos hsize]
  refine ⟨?_, ?_, ?_⟩
  · intro hf
    rw [send_handler_no_file fs token lock_token i j s hauth hf]
  · intro f hd handles' hf hgo hsize
    rw [send_handler_some fs token lock_token i j s f hauth hf,
      (dedup_step_frame s i j).2.2.2.2.2, hgo]
    simp [hpc hd f hsize]
  · intro f hf hsize
    rw [send_handler_some fs token lock_token i j s f hauth hf,
      (dedup_step_frame s i j).2.2.2.2.2]
    cases hgo : get_or_open_handle fs s.file_handles i f with
    | error e => simp [is_internal_error]
    | ok pr =>
        cases pr with
        | mk hd handles' => simp [hpc hd f hsize, is_internal_error]

/-- C5 counterexample: on the sample state (file size 3, chunk size 2),
chunk index 2 has start 4 ≥ 3; the response is an `Internal` error, not
the `BadRequest("chunk out of range")` the claim asserts. -/
theorem C5_counterexample :
    (send_handler sampleFs "tok" "cid" 0 2 sampleState).1
      = .error (.Internal "Chunk start 4 exceeds file size 3")
    ∧ ¬ ((send_handler sampleFs "tok" "cid" 0 2 sampleState).1
          = .error (.BadRequest "chunk out of range")) := by
  have h1 : (send_handler sampleFs "tok" "cid" 0 2 sampleState).1
      = .error (.Internal "Chunk start 4 exceeds file size 3") := by rfl
  exact ⟨h1, by rw [h1]; simp⟩

/-- C5 witness: the amended claim at the sample state — an out-of-bounds
file index yields `BadRequest`, and an out-of-range chunk start yields an
`Internal` error; additionally, a chunk index whose `u64` product wraps
below the file size (`2 ^ 43 · 10 MiB ≡ 0 (mod 2 ^ 64)`) passes the bounds
check and is served. -/
theorem C5_bounds_error_kinds_witness :
    (send_handler sampleFs "tok" "cid" 1 0 sampleState).1
      = .error (.BadRequest "file_index out of bounds: 1")
    ∧ is_internal_error (send_handler sampleFs "tok" "cid" 0 2 sampleState).1
        = true
    ∧ (process_chunk ⟨[1, 2, 3]⟩ (2 ^ 43) zeroCipher (10 * 1024 * 1024) 3
        "AAAAAAAAAAA=").isOk = true := by
  refine ⟨?_, ?_, ?_⟩
  · have h := (C5_bounds_error_kinds sampleFs "tok" "cid" 1 0 sampleState rfl).1 rfl
    rw [h]
    rfl
  · exact (C5_bounds_error_kinds sampleFs "tok" "cid" 0 2 sampleState rfl).2.2
      sampleEntry rfl (by decide)
  · decide

/-! ## C7: the 25 MiB / 10 MiB scenario and the dead sent counter

`increment_sent_chunk` is defined (src/send/state.rs:80-84) but never
called: `send_handler` only marks the dedup set and bumps per-file
progress, so `chunks_sent` stays 0 and `complete_download`
(src/send/handlers.rs:189-199) warns about a premature completion even
after every chunk was served. -/

/-- 25 MiB file entry served from path "big" with the all-zero nonce
base. -/
def c7_entry : FileEntry :=
  { index := 0, name := "big.bin", full_path := "big",
    size := 25 * 1024 * 1024, nonce := "AAAAAAAAAAA=" }

/-- One-file manifest for the C7 scenario, local-mode settings. -/
def c7_manifest : Manifest := ⟨[c7_entry], TransferConfig.local_mode⟩

/-- Filesystem serving the 25 MiB content at path "big". -/
def c7_fs (data : List Nat) : String → Option (List Nat) :=
  fun p => if p = "big" then some data else none

/-- Fresh send state for the C7 scenario on a claimed session. -/
def c7_state (cipher : Aes256Gcm) : SendAppState :=
  { session := ⟨"tok", .claimed "cid", cipher⟩
  , manifest := c7_manifest
  , progress := ⟨[]⟩
  , file_handles := []
  , config := TransferConfig.local_mode
  , chunks_sent := 0
  , sent_chunks := []
  , total_chunks := c7_manifest.total_chunks TransferConfig.local_mode.chunk_size }

lemma send_handler_first_success (fs : String → Option (List Nat))
    (token lock_token : String) (i j : Nat) (s : SendAppState) (fe : FileEntry)
    (hd : SendFileHandle) (handles' : List (Nat × SendFileHandle))
    (bytes : List Nat)
    (hauth : require_active_session s.session token lock_token = .ok ())
    (hf : s.get_file i = some fe)
    (hnot : s.has_chunk_been_sent i j = false)
    (hgo : get_or_open_handle fs s.file_handles i fe = .ok (hd, handles'))
    (hp : process_chunk hd j s.session.cipher s.config.chunk_size fe.size
        fe.nonce = .ok bytes) :
    send_handler fs token lock_token i j s
      = (.ok bytes,
         { s with sent_chunks := (i, j) :: s.sent_chunks
                , progress := s.progress.increment_file i
                , file_handles := handles' }) := by
  rw [send_handler_some fs token lock_token i j s fe hauth hf]
  have hc : ¬ ((i, j) ∈ s.sent_chunks) := by
    simpa [SendAppState.has_chunk_been_sent] using hnot
  have hded : dedup_step s i j
      = { s with sent_chunks := (i, j) :: s.sent_chunks
               , progress := s.progress.increment_file i } := by
    unfold dedup_step SendAppState.mark_chunk_sent
    simp [hnot, hc]
  rw [hded]
  simp [hgo, hp]

lemma process_chunk_ok (hd : SendFileHandle) (j cs fsz : Nat)
    (cipher : Aes256Gcm) (nonce_str : String) (n : Nonce)
    (hn : Nonce.from_base64 nonce_str = .ok n)
    (hlt : j * cs % 2 ^ 64 < fsz)
    (hread : j * cs % 2 ^ 64
        + (min ((j * cs % 2 ^ 64 + cs) % 2 ^ 64) fsz + 2 ^ 64
            - j * cs % 2 ^ 64) % 2 ^ 64
      ≤ hd.data.length) :
    process_chunk hd j cipher cs fsz nonce_str
      = .ok (encrypt_chunk_in_place cipher n
          ((hd.data.drop (j * cs % 2 ^ 64)).take
            ((min ((j * cs % 2 ^ 64 + cs) % 2 ^ 64) fsz + 2 ^ 64
              - j * cs % 2 ^ 64) % 2 ^ 64))
          (j % 2 ^ 32)) := by
  unfold process_chunk SendFileHandle.read_chunk
  rw [if_neg (by omega)]
  simp only []
  rw [if_pos hread, hn]

/-- Ciphertext served for chunk `j` of the C7 file (chunk size 10 MiB,
all-zero nonce base). -/
def c7_b (cipher : Aes256Gcm) (data : List Nat) (j : Nat) : List Nat :=
  encrypt_chunk_in_place cipher ⟨[0, 0, 0, 0, 0, 0, 0, 0]⟩
    ((data.drop (j * (10 * 1024 * 1024) % 2 ^ 64)).take
      ((min ((j * (10 * 1024 * 1024) % 2 ^ 64 + 10 * 1024 * 1024) % 2 ^ 64)
          (25 * 1024 * 1024)
        + 2 ^ 64 - j * (10 * 1024 * 1024) % 2 ^ 64) % 2 ^ 64)) (j % 2 ^ 32)

/-- State after serving chunk `(0,0)` of the C7 scenario. -/
def c7_s1 (cipher : Aes256Gcm) (data : List Nat) : SendAppState :=
  { c7_state cipher with
      sent_chunks := (0, 0) :: (c7_state cipher).sent_chunks
    , progress := (c7_state cipher).progress.increment_file 0
    , file_handles := [(0, ⟨data⟩)] }

/-- State after serving chunks `(0,0)` and `(0,1)`. -/
def c7_s2 (cipher : Aes256Gcm) (data : List Nat) : SendAppState :=
  { c7_s1 cipher data with
      sent_chunks := (0, 1) :: (c7_s1 cipher data).sent_chunks
    , progress := (c7_s1 cipher data).progress.increment_file 0
    , file_handles := [(0, ⟨data⟩)] }

/-- State after serving chunks `(0,0)`, `(0,1)` and `(0,2)`. -/
def c7_s3 (cipher : Aes256Gcm) (data : List Nat) : SendAppState :=
  { c7_s2 cipher data with
      sent_chunks := (0, 2) :: (c7_s2 cipher data).sent_chunks
    , progress := (c7_s2 cipher data).progress.increment_file 0
    , file_handles := [(0, ⟨data⟩)] }

lemma c7_nonce_decodes :
    Nonce.from_base64 "AAAAAAAAAAA=" = .ok ⟨[0, 0, 0, 0, 0, 0, 0, 0]⟩ := by rfl

lemma c7_run (cipher : Aes256Gcm) (data : List Nat)
    (hdata : data.length = 25 * 1024 * 1024) :
    send_handler (c7_fs data) "tok" "cid" 0 0 (c7_state cipher)
      = (.ok (c7_b cipher data 0), c7_s1 cipher data)
    ∧ send_handler (c7_fs data) "tok" "cid" 0 1 (c7_s1 cipher data)
      = (.ok (c7_b cipher data 1), c7_s2 cipher data)
    ∧ send_handler (c7_fs data) "tok" "cid" 0 2 (c7_s2 cipher data)
      = (.ok (c7_b cipher data 2), c7_s3 cipher data) := by
  refine ⟨?_, ?_, ?_⟩
  · exact send_handler_first_success (c7_fs data) "tok" "cid" 0 0
      (c7_state cipher) c7_entry ⟨data⟩ [(0, ⟨data⟩)] (c7_b cipher data 0)
      rfl rfl rfl rfl
      (process_chunk_ok ⟨data⟩ 0 (c7_state cipher).config.chunk_size
        c7_entry.size cipher c7_entry.nonce ⟨[0, 0, 0, 0, 0, 0, 0, 0]⟩
        c7_nonce_decodes
        ((by norm_num : 0 * (10 * 1024 * 1024) % 2 ^ 64 < 25 * 1024 * 1024))
        ((by rw [hdata]; decide :
          0 * (10 * 1024 * 1024) % 2 ^ 64
            + (min ((0 * (10 * 1024 * 1024) % 2 ^ 64 + 10 * 1024 * 1024) % 2 ^ 64)
                (25 * 1024 * 1024)
              + 2 ^ 64 - 0 * (10 * 1024 * 1024) % 2 ^ 64) % 2 ^ 64
            ≤ data.length)))
  · exact send_handler_first_success (c7_fs data) "tok" "cid" 0 1
      (c7_s1 cipher data) c7_entry ⟨data⟩ [(0, ⟨data⟩)] (c7_b cipher data 1)
      rfl rfl rfl rfl
      (process_chunk_ok ⟨data⟩ 1 (c7_s1 cipher data).config.chunk_size
        c7_entry.size cipher c7_entry.nonce ⟨[0, 0, 0, 0, 0, 0, 0, 0]⟩
        c7_nonce_decodes
        ((by norm_num : 1 * (10 * 1024 * 1024) % 2 ^ 64 < 25 * 1024 * 1024))
        ((by rw [hdata]; decide :
          1 * (10 * 1024 * 1024) % 2 ^ 64
            + (min ((1 * (10 * 1024 * 1024) % 2 ^ 64 + 10 * 1024 * 1024) % 2 ^ 64)
                (25 * 1024 * 1024)
              + 2 ^ 64 - 1 * (10 * 1024 * 1024) % 2 ^ 64) % 2 ^ 64
            ≤ data.length)))
  · exact send_handler_first_success (c7_fs data) "tok" "cid" 0 2
      (c7_s2 cipher data) c7_entry ⟨data⟩ [(0, ⟨data⟩)] (c7_b cipher data 2)
      rfl rfl rfl rfl
      (process_chunk_ok ⟨data⟩ 2 (c7_s2 cipher data).config.chunk_size
        c7_entry.size cipher c7_entry.nonce ⟨[0, 0, 0, 0, 0, 0, 0, 0]⟩
        c7_nonce_decodes
        ((by norm_num : 2 * (10 * 1024 * 1024) % 2 ^ 64 < 25 * 1024 * 1024))
        ((by rw [hdata]; decide :
          2 * (10 * 1024 * 1024) % 2 ^ 64
            + (min ((2 * (10 * 1024 * 1024) % 2 ^ 64 + 10 * 1024 * 1024) % 2 ^ 64)
                (25 * 1024 * 1024)
              + 2 ^ 64 - 2 * (10 * 1024 * 1024) % 2 ^ 64) % 2 ^ 64
            ≤ data.length)))

/-- C7 (code bug evidence): in the 25 MiB / 10 MiB scenario the chunk math
gives 3 chunks and the three requests `(0,0)`, `(0,1)`, `(0,2)` are each
served successfully (the last ciphertext is 5 MiB + 16 tag bytes), but the
counter read by `get_chunks_sent` is 0, not 3: `send_handler` never calls
`increment_sent_chunk`, so `complete_download`'s premature-completion check
always fires. -/
theorem C7_get_chunks_sent_stays_zero (cipher : Aes256Gcm) (data : List Nat)
    (hdata : data.length = 25 * 1024 * 1024) :
    Manifest.total_chunks c7_manifest (10 * 1024 * 1024) = 3
    ∧ send_handler (c7_fs data) "tok" "cid" 0 0 (c7_state cipher)
        = (.ok (c7_b cipher data 0), c7_s1 cipher data)
    ∧ send_handler (c7_fs data) "tok" "cid" 0 1
        ((send_handler (c7_fs data) "tok" "cid" 0 0 (c7_state cipher)).2)
        = (.ok (c7_b cipher data 1), c7_s2 cipher data)
    ∧ send_handler (c7_fs data) "tok" "cid" 0 2
        ((send_handler (c7_fs data) "tok" "cid" 0 1
          ((send_handler (c7_fs data) "tok" "cid" 0 0 (c7_state cipher)).2)).2)
        = (.ok (c7_b cipher data 2), c7_s3 cipher data)
    ∧ (c7_b cipher data 2).length = 5 * 1024 * 1024 + 16
    ∧ (c7_s3 cipher data).get_chunks_sent = 0
    ∧ (c7_s3 cipher data).get_total_chunks = 3 := by
  obtain ⟨e1, e2, e3⟩ := c7_run cipher data hdata
  have htot : Manifest.total_chunks c7_manifest (10 * 1024 * 1024) = 3 := by
    decide
  refine ⟨htot, e1, ?_, ?_, ?_, rfl, ?_⟩
  · rw [e1]
    exact e2
  · rw [e1]
    simp only []
    rw [e2]
    exact e3
  · unfold c7_b encrypt_chunk_in_place
    rw [encrypt_length, List.length_take, List.length_drop, hdata]
    decide
  · show (c7_state cipher).total_chunks = 3
    exact htot

/-- C7 witness: the scenario instantiated with an all-zero 25 MiB file and
the trivial cipher — the served counter still reads 0 while the last
ciphertext has the expected 5 MiB + 16 length. -/
theorem C7_get_chunks_sent_stays_zero_witness :
    (c7_s3 zeroCipher (List.replicate (25 * 1024 * 1024) 0)).get_chunks_sent = 0
    ∧ (c7_b zeroCipher (List.replicate (25 * 1024 * 1024) 0) 2).length
        = 5 * 1024 * 1024 + 16
    ∧ (List.replicate (25 * 1024 * 1024) (0 : Nat)).length = 25 * 1024 * 1024 := by
  have h := C7_get_chunks_sent_stays_zero zeroCipher
    (List.replicate (25 * 1024 * 1024) 0) (List.length_replicate _ _)
  exact ⟨h.2.2.2.2.2.1, h.2.2.2.2.1, List.length_replicate _ _⟩

/-! ## Progress tracker (src/server/progress.rs)

The watch channel is modelled as the list of values sent on it (newest
first); the `f64` percentage arithmetic is carried out exactly in `ℚ`
(`completed`, `total` and the constants `100.0`, `99.0` are all exactly
representable, and the `min` cap is exact in either arithmetic). -/

/-- `ProgressTracker` (src/server/progress.rs:5-9). -/
structure ProgressTracker where
  total_chunks : Nat
  completed_chunks : Nat
  sent : List ℚ
deriving Repr, DecidableEq

/-- `ProgressTracker::new(total_chunks, progress_sender)`
(src/server/progress.rs:12-18); the fresh channel has sent nothing yet. -/
def ProgressTracker.new (total_chunks : Nat) : ProgressTracker :=
  { total_chunks := total_chunks, completed_chunks := 0, sent := [] }

/-- `update_progress` (src/server/progress.rs:47-56): raw percentage (0
when `total = 0`), capped at 99 before sending. -/
def ProgressTracker.update_progress (t : ProgressTracker)
    (completed total : Nat) : ProgressTracker :=
  let raw_progress : ℚ :=
    if 0 < total then (completed : ℚ) / (total : ℚ) * 100 else 0
  { t with sent := min raw_progress 99 :: t.sent }

/-- `increment` (src/server/progress.rs:22-30): bump the completed count,
send the capped update, return `(completed, total)`. -/
def ProgressTracker.increment (t : ProgressTracker) :
    (Nat × Nat) × ProgressTracker :=
  let completed := t.completed_chunks + 1
  let total := t.total_chunks
  let t1 := { t with completed_chunks := completed }
  ((completed, total), t1.update_progress completed total)

/-- `set_total` (src/server/progress.rs:32-34). -/
def ProgressTracker.set_total (t : ProgressTracker) (total : Nat) :
    ProgressTracker :=
  { t with total_chunks := total }

/-- `get_progress` (src/server/progress.rs:36-40). -/
def ProgressTracker.get_progress (t : ProgressTracker) : Nat × Nat :=
  (t.completed_chunks, t.total_chunks)

/-- `complete` (src/server/progress.rs:43-45): sends exactly 100. -/
def ProgressTracker.complete (t : ProgressTracker) : ProgressTracker :=
  { t with sent := (100 : ℚ) :: t.sent }

/-- Operations a handler can drive the tracker with before completion. -/
inductive ProgressOp
  | increment
  | set_total (total : Nat)

/-- Run a sequence of tracker operations. -/
def runProgress (t : ProgressTracker) : List ProgressOp → ProgressTracker
  | [] => t
  | .increment :: rest => runProgress t.increment.2 rest
  | .set_total n :: rest => runProgress (t.set_total n) rest

/-- Every value the tracker has sent is at most 99. -/
def ProgressTracker.sentCapped (t : ProgressTracker) : Prop :=
  ∀ x ∈ t.sent, x ≤ 99

lemma update_progress_capped (t : ProgressTracker) (c tot : Nat)
    (h : t.sentCapped) : (t.update_progress c tot).sentCapped := by
  intro x hx
  unfold ProgressTracker.update_progress at hx
  simp only [List.mem_cons] at hx
  rcases hx with hx | hx
  · rw [hx]
    exact min_le_right _ _
  · exact h x hx

lemma runProgress_capped (ops : List ProgressOp) (t : ProgressTracker)
    (h : t.sentCapped) : (runProgress t ops).sentCapped := by
  induction ops generalizing t with
  | nil => exact h
  | cons op rest ih =>
      cases op with
      | increment =>
          exact ih _ (update_progress_capped _ _ _ h)
      | set_total n =>
          refine ih _ ?_
          intro x hx
          exact h x hx

/-- C6: starting from a fresh tracker, every percentage emitted on the
channel by any sequence of `increment`/`set_total` calls is at most 99, and
`complete()` emits exactly 100. -/
theorem C6_progress_cap (total : Nat) (ops : List ProgressOp) :
    (∀ x ∈ (runProgress (ProgressTracker.new total) ops).sent, x ≤ 99)
    ∧ (runProgress (ProgressTracker.new total) ops).complete.sent
        = (100 : ℚ) :: (runProgress (ProgressTracker.new total) ops).sent := by
  constructor
  · exact runProgress_capped ops (ProgressTracker.new total) (by intro x hx; cases hx)
  · rfl

/-- C6 witness: a 1-chunk tracker incremented once emits `min 100 99 = 99`,
which the theorem bounds by 99; `complete` then emits exactly 100. -/
theorem C6_progress_cap_witness :
    (99 : ℚ) ≤ 99
    ∧ (runProgress (ProgressTracker.new 1) [.increment]).complete.sent
        = (100 : ℚ) :: (runProgress (ProgressTracker.new 1) [.increment]).sent := by
  constructor
  · refine (C6_progress_cap 1 [.increment]).1 99 ?_
    show (99 : ℚ) ∈ (runProgress (ProgressTracker.new 1) [.increment]).sent
    unfold runProgress ProgressTracker.increment ProgressTracker.update_progress
      ProgressTracker.new
    norm_num
    simp [runProgress]
  · exact (C6_progress_cap 1 [.increment]).2

/-! ## Buffer pool (src/send/buffer_pool.rs)

A Rust `Vec<u8>` is modelled as its contents plus its capacity; the free
list is a stack (head = the vector's end, where `push`/`pop` operate). -/

/-- A `Vec<u8>` buffer: contents (`len = data.length`) and capacity. -/
structure Buffer where
  data : List Nat
  cap : Nat
deriving Repr, DecidableEq

/-- `BufferPool` (src/send/buffer_pool.rs:9-12): mutex-guarded free list
plus the target capacity. -/
structure BufferPool where
  buffers : List Buffer
  buffer_capacity : Nat
deriving Repr, DecidableEq

/-- `BufferPool::new(pool_size, buffer_capacity)`
(src/send/buffer_pool.rs:16-24): `pool_size` empty buffers of the target
capacity. -/
def BufferPool.new (pool_size buffer_capacity : Nat) : BufferPool :=
  { buffers := List.replicate pool_size { data := [], cap := buffer_capacity }
  , buffer_capacity := buffer_capacity }

/-- `take` (src/send/buffer_pool.rs:27-33): pop from the free list, or
allocate `Vec::with_capacity(buffer_capacity)` when empty. -/
def BufferPool.take (p : BufferPool) : Buffer × BufferPool :=
  match p.buffers with
  | b :: rest => (b, { p with buffers := rest })
  | [] => ({ data := [], cap := p.buffer_capacity }, p)

/-- `return_buf` (src/send/buffer_pool.rs:43-49): clear the buffer (length
0, capacity kept), and push it back only if its capacity reaches
`buffer_capacity`; undersized buffers are dropped. -/
def BufferPool.return_buf (p : BufferPool) (buf : Buffer) : BufferPool :=
  let cleared := { buf with data := [] }
  if p.buffer_capacity ≤ cleared.cap then
    { p with buffers := cleared :: p.buffers }
  else p

/-- Every buffer sitting in the free list is cleared (length 0). -/
def BufferPool.allCleared (p : BufferPool) : Prop :=
  ∀ b ∈ p.buffers, b.data = []

/-- C8: `take` pops the free list or allocates at the configured capacity,
and always hands out a length-0 buffer (the free list only ever holds
cleared buffers, an invariant `new` establishes and `return_buf`
preserves); `return_buf` clears the buffer and retains it exactly when its
capacity is at least `buffer_capacity`, dropping undersized buffers. -/
theorem C8_buffer_pool (p : BufferPool) (b : Buffer) (n cap : Nat) :
    (p.buffers = [] →
      p.take = ({ data := [], cap := p.buffer_capacity }, p))
    ∧ (∀ b0 rest, p.buffers = b0 :: rest →
        p.take = (b0, { p with buffers := rest }))
    ∧ (BufferPool.new n cap).allCleared
    ∧ (p.allCleared → (p.take).1.data = [])
    ∧ (p.allCleared → (p.return_buf b).allCleared)
    ∧ ((p.return_buf b).buffers
        = if p.buffer_capacity ≤ b.cap then { b with data := [] } :: p.buffers
          else p.buffers) := by
  refine ⟨?_, ?_, ?_, ?_, ?_, ?_⟩
  · intro h
    unfold BufferPool.take
    rw [h]
  · intro b0 rest h
    unfold BufferPool.take
    rw [h]
  · intro x hx
    unfold BufferPool.new at hx
    simp only [List.mem_replicate] at hx
    rw [hx.2]
  · intro h
    unfold BufferPool.take
    cases hb : p.buffers with
    | nil => rfl
    | cons b0 rest =>
        exact h b0 (by rw [hb]; exact List.mem_cons_self _ _)
  · intro h x hx
    unfold BufferPool.return_buf at hx
    by_cases hc : p.buffer_capacity ≤ b.cap
    · simp only [hc, if_true] at hx
      rcases List.mem_cons.mp hx with hx | hx
      · rw [hx]
      · exact h x hx
    · simp only [hc, if_false] at hx
      exact h x hx
  · unfold BufferPool.return_buf
    by_cases hc : p.buffer_capacity ≤ b.cap
    · simp [hc]
    · simp [hc]

/-- C8 witness: a fresh 1-buffer pool of capacity 8 — `take` pops the
cleared buffer, a second `take` allocates fresh at capacity 8, and
returning an undersized capacity-2 buffer leaves the free list empty. -/
theorem C8_buffer_pool_witness :
    (BufferPool.new 1 8).take
      = ({ data := [], cap := 8 }, { buffers := [], buffer_capacity := 8 })
    ∧ ((BufferPool.new 1 8).take.2.take.1.data = [])
    ∧ ((BufferPool.new 1 8).take.2.return_buf { data := [4, 5], cap := 2 }).buffers
        = [] := by
  have h := C8_buffer_pool (BufferPool.new 1 8) { data := [4, 5], cap := 2 } 1 8
  have h2 := C8_buffer_pool (BufferPool.new 1 8).take.2 { data := [4, 5], cap := 2 } 1 8
  refine ⟨?_, ?_, ?_⟩
  · have := h.2.1 { data := [], cap := 8 } [] (by decide)
    rw [this]
    decide
  · exact h2.2.2.2.1 (by intro x hx; simp [BufferPool.new, BufferPool.take] at hx)
  · have := h2.2.2.2.2.2
    rw [this]
    decide

/-! ## Path-safety validation (src/utils/security.rs)

`Path::components()` of the Rust standard library is modelled for Unix
paths: split on `/`, drop empty segments, a leading `/` is `RootDir`,
`..` is `ParentDir`, `.` is `CurDir` and is normalized away except at the
start of a relative path; the Windows-only `Prefix` component never occurs
on Unix, so the validator's `InvalidComponent` arm is unreachable here. -/

/-- `ValidationError` (src/utils/security.rs:5-24). -/
inductive ValidationError
  | ContainsParentDir
  | AbsolutePath
  | InvalidComponent
  | NullByte
  | Empty
  | ContainsDirectorySeparator
deriving Repr, DecidableEq

/-- A Unix path component (`std::path::Component`, minus the Windows-only
prefix). -/
inductive PathComponent
  | rootDir
  | curDir
  | parentDir
  | normal (name : List Char)
deriving Repr, DecidableEq

/-- Split a character list at a separator, keeping empty segments. -/
def splitChar (sep : Char) : List Char → List (List Char)
  | [] => [[]]
  | c :: rest =>
      let r := splitChar sep rest
      if c = sep then [] :: r
      else
        match r with
        | seg :: segs => (c :: seg) :: segs
        | [] => [[c]]

/-- Turn non-empty path segments into components; `.` segments are
normalized away (the leading `.` of a relative path is handled by
`pathComponents`). -/
def segComponents : List (List Char) → List PathComponent
  | [] => []
  | seg :: rest =>
      if seg = ['.'] then segComponents rest
      else if seg = ['.', '.'] then .parentDir :: segComponents rest
      else .normal seg :: segComponents rest

/-- `Path::new(s).components()` on Unix. -/
def pathComponents (s : String) : List PathComponent :=
  let segs := (splitChar '/' s.data).filter (fun t => t ≠ [])
  let isAbs : Bool :=
    match s.data with
    | c :: _ => c = '/'
    | [] => false
  if isAbs then .rootDir :: segComponents segs
  else
    match segs with
    | seg :: rest =>
        if seg = ['.'] then .curDir :: segComponents rest else segComponents segs
    | [] => []

/-- The component loop of `validate_path_components`
(src/utils/security.rs:56-64): `Normal` and `CurDir` continue, `ParentDir`
and `RootDir` reject. -/
def checkComponents : List PathComponent → Except ValidationError Unit
  | [] => .ok ()
  | .normal _ :: rest => checkComponents rest
  | .parentDir :: _ => .error .ContainsParentDir
  | .rootDir :: _ => .error .AbsolutePath
  | .curDir :: rest => checkComponents rest

/-- `validate_path_components` (src/utils/security.rs:42-67): reject empty
strings and NUL bytes, then scan the path components. -/
def validate_path_components (path_str : String) : Except ValidationError Unit :=
  if path_str.data = [] then .error .Empty
  else if path_str.data.contains '\x00' then .error .NullByte
  else checkComponents (pathComponents path_str)

/-- `validate_path` (src/utils/security.rs:71-73). -/
def validate_path (path : String) : Except ValidationError Unit :=
  validate_path_components path

/-- `validate_filename` (src/utils/security.rs:77-85): the shared component
validation plus a rejection of `/` and `\` anywhere in the name. -/
def validate_filename (filename : String) : Except ValidationError Unit :=
  match validate_path_components filename with
  | .error e => .error e
  | .ok _ =>
      if filename.data.contains '/' ∨ filename.data.contains '\\' then
        .error .ContainsDirectorySeparator
      else .ok ()

/-- The claim's rejection predicate: empty, NUL byte, a parent-directory
component, an absolute path, or a directory separator. -/
def filenameUnsafe (s : String) : Prop :=
  s.data = [] ∨ s.data.contains '\x00' = true
  ∨ PathComponent.parentDir ∈ pathComponents s
  ∨ PathComponent.rootDir ∈ pathComponents s
  ∨ s.data.contains '/' = true ∨ s.data.contains '\\' = true

lemma splitChar_no_sep (sep : Char) (cs : List Char) (h : ¬ sep ∈ cs) :
    splitChar sep cs = [cs] := by
  induction cs with
  | nil => rfl
  | cons c rest ih =>
      simp only [List.mem_cons] at h
      push_neg at h
      unfold splitChar
      rw [ih h.2]
      simp [Ne.symm h.1]

lemma checkComponents_ok_iff (l : List PathComponent) :
    (checkComponents l).isOk = true
      ↔ (PathComponent.parentDir ∉ l ∧ PathComponent.rootDir ∉ l) := by
  induction l with
  | nil => simp [checkComponents, Except.isOk, Except.toBool]
  | cons c rest ih =>
      cases c with
      | rootDir => simp [checkComponents, Except.isOk, Except.toBool]
      | parentDir => simp [checkComponents, Except.isOk, Except.toBool]
      | curDir =>
          simp only [checkComponents]
          simpa using ih
      | normal name =>
          simp only [checkComponents]
          simpa using ih

lemma except_unit_ok (e : Except ValidationError Unit) (h : e.isOk = true) :
    e = .ok () := by
  cases e with
  | error a => simp [Except.isOk, Except.toBool] at h
  | ok u => cases u; rfl

/-- C9: `validate_filename` accepts exactly the names that are non-empty,
NUL-free, separator-free, not absolute and free of parent-directory
components; in particular `"../etc/passwd"` is rejected with
`ContainsParentDir`. -/
theorem C9_filename_validation (s : String) :
    ((validate_filename s).isOk = true ↔ ¬ filenameUnsafe s)
    ∧ validate_filename "../etc/passwd" = .error .ContainsParentDir := by
  constructor
  · constructor
    · intro h
      unfold validate_filename at h
      cases hv : validate_path_components s with
      | error e => rw [hv] at h; simp [Except.isOk, Except.toBool] at h
      | ok u =>
          cases u
          rw [hv] at h
          by_cases hsep : s.data.contains '/' = true ∨ s.data.contains '\\' = true
          · rw [if_pos hsep] at h
            simp [Except.isOk, Except.toBool] at h
          · unfold validate_path_components at hv
            by_cases hne : s.data = []
            · rw [if_pos hne] at hv
              exact absurd hv (by simp)
            · rw [if_neg hne] at hv
              by_cases hnul : s.data.contains '\x00' = true
              · rw [if_pos hnul] at hv
                exact absurd hv (by simp)
              · rw [if_neg hnul] at hv
                have hcc : (checkComponents (pathComponents s)).isOk = true := by
                  rw [hv]; rfl
                obtain ⟨hpd, hrd⟩ := (checkComponents_ok_iff _).mp hcc
                obtain ⟨hs1, hs2⟩ := not_or.mp hsep
                unfold filenameUnsafe
                push_neg
                exact ⟨hne, hnul, hpd, hrd, hs1, hs2⟩
    · intro h
      unfold filenameUnsafe at h
      push_neg at h
      obtain ⟨hne, hnul, hpd, hrd, hs1, hs2⟩ := h
      have hvp : validate_path_components s = .ok () := by
        unfold validate_path_components
        rw [if_neg hne, if_neg hnul]
        exact except_unit_ok _ ((checkComponents_ok_iff _).mpr ⟨hpd, hrd⟩)
      unfold validate_filename
      rw [hvp]
      rw [if_neg (show ¬ (s.data.contains '/' = true ∨ s.data.contains '\\' = true)
        from not_or.mpr ⟨hs1, hs2⟩)]
      rfl
  · rfl

/-- C9 witness: concrete checks — a plain filename is accepted, and each
unsafe shape is rejected. -/
theorem C9_filename_validation_witness :
    (validate_filename "file.txt").isOk = true
    ∧ (validate_filename "").isOk = false
    ∧ (validate_filename "dir/file.txt").isOk = false
    ∧ (validate_filename "..").isOk = false
    ∧ (validate_filename "/etc/passwd").isOk = false := by
  refine ⟨?_, ?_, ?_, ?_, ?_⟩
  · exact (C9_filename_validation "file.txt").1.mpr (by
      unfold filenameUnsafe pathComponents
      simp only []
      decide)
  all_goals decide

/-! ## One-shot download session store (src/session.rs)

The earlier single-file download server's store. The `HashMap` is modelled
as an association list where insertion prepends (lookup finds the newest
binding, matching the map's overwrite semantics); the random
`Uuid::new_v4` token is an explicit argument of `create_session`, and the
async mutex serializes operations, so a history is a list of operations. -/

/-- `SessionData` (src/session.rs:11-14). -/
structure SessionData where
  file_path : String
  used : Bool
deriving Repr, DecidableEq

/-- `SessionStore` (src/session.rs:6-9). -/
structure SessionStore where
  sessions : List (String × SessionData)
deriving Repr, DecidableEq

/-- `SessionStore::new` (src/session.rs:17-22). -/
def SessionStore.new : SessionStore := ⟨[]⟩

/-- `create_session` (src/session.rs:24-40): insert the token, unused. -/
def SessionStore.create_session (store : SessionStore) (token file_path : String) :
    SessionStore :=
  ⟨(token, { file_path := file_path, used := false }) :: store.sessions⟩

/-- Set `used := true` on the visible binding of `token`. -/
def setUsed : List (String × SessionData) → String → List (String × SessionData)
  | [], _ => []
  | (t, sd) :: rest, token =>
      if t = token then (t, { sd with used := true }) :: rest
      else (t, sd) :: setUsed rest token

/-- `validate_and_mark_used` (src/session.rs:42-58): return the file path
and mark the session used on first validation; `none` when the token is
unknown or already used. -/
def SessionStore.validate_and_mark_used (store : SessionStore) (token : String) :
    Option String × SessionStore :=
  match store.sessions.lookup token with
  | some sd =>
      if sd.used then (none, store)
      else (some sd.file_path, ⟨setUsed store.sessions token⟩)
  | none => (none, store)

/-- `is_valid` (src/session.rs:61-66): the token exists and is unused. -/
def SessionStore.is_valid (store : SessionStore) (token : String) : Bool :=
  match store.sessions.lookup token with
  | some sd => !sd.used
  | none => false

/-- A store operation: session creation (with its fresh token) or a
validation attempt. -/
inductive StoreOp
  | create (token file_path : String)
  | validate (token : String)
deriving Repr, DecidableEq

/-- Run the operations in order; the trace records each validation's token
and result. -/
def runStore (store : SessionStore) :
    List StoreOp → SessionStore × List (String × Option String)
  | [] => (store, [])
  | .create t p :: rest => runStore (store.create_session t p) rest
  | .validate t :: rest =>
      let r := store.validate_and_mark_used t
      let res := runStore r.2 rest
      (res.1, (t, r.1) :: res.2)

/-- Tokens handed out by the `create` operations of a history. -/
def createTokens : List StoreOp → List String
  | [] => []
  | .create t _ :: rest => t :: createTokens rest
  | .validate _ :: rest => createTokens rest

/-- How many validations of `t` in the trace returned `some`. -/
def countSome (trace : List (String × Option String)) (t : String) : Nat :=
  (trace.filter (fun e => decide (e.1 = t) && e.2.isSome)).length

lemma lookup_create_ne (store : SessionStore) (t' p t : String) (h : t' ≠ t) :
    (store.create_session t' p).sessions.lookup t = store.sessions.lookup t := by
  simp [SessionStore.create_session, List.lookup,
    beq_eq_false_iff_ne.mpr (Ne.symm h)]

lemma lookup_setUsed_ne (l : List (String × SessionData)) (t' t : String)
    (h : t' ≠ t) : (setUsed l t').lookup t = l.lookup t := by
  induction l with
  | nil => rfl
  | cons e rest ih =>
      cases e with
      | mk t0 sd =>
          by_cases h0 : t0 = t'
          · subst h0
            simp [setUsed, List.lookup, beq_eq_false_iff_ne.mpr (Ne.symm h)]
          · simp only [setUsed, if_neg h0, List.lookup]
            cases hbe : (t == t0) <;> simp [hbe, ih]

lemma lookup_setUsed_self (l : List (String × SessionData)) (t : String)
    (sd : SessionData) (h : l.lookup t = some sd) :
    (setUsed l t).lookup t = some { sd with used := true } := by
  induction l with
  | nil => simp [List.lookup] at h
  | cons e rest ih =>
      cases e with
      | mk t0 sd0 =>
          by_cases h0 : t0 = t
          · subst h0
            simp only [List.lookup, beq_self_eq_true] at h
            have hsd : sd0 = sd := by simpa using h
            simp [setUsed, List.lookup, hsd]
          · have hbe : (t == t0) = false :=
              beq_eq_false_iff_ne.mpr (Ne.symm h0)
            simp only [List.lookup, hbe] at h
            simp only [setUsed, if_neg h0, List.lookup, hbe]
            exact ih h

lemma used_stays (l : List StoreOp) (t : String) (sd : SessionData)
    (hu : sd.used = true) :
    ∀ store : SessionStore, store.sessions.lookup t = some sd →
      (∀ p, StoreOp.create t p ∉ l) →
      (runStore store l).1.sessions.lookup t = some sd
      ∧ (∀ e ∈ (runStore store l).2, e.1 = t → e.2 = none) := by
  induction l with
  | nil =>
      intro store hl hnc
      exact ⟨hl, by intro e he; cases he⟩
  | cons op rest ih =>
      intro store hl hnc
      cases op with
      | create t' p =>
          have ht' : t' ≠ t := by
            intro hh
            exact hnc p (by rw [hh]; exact List.mem_cons_self _ _)
          have hnc' : ∀ q, StoreOp.create t q ∉ rest := by
            intro q hq
            exact hnc q (List.mem_cons_of_mem _ hq)
          have hl' : (store.create_session t' p).sessions.lookup t = some sd := by
            rw [lookup_create_ne store t' p t ht']
            exact hl
          exact ih _ hl' hnc'
      | validate t' =>
          have hnc' : ∀ q, StoreOp.create t q ∉ rest := by
            intro q hq
            exact hnc q (List.mem_cons_of_mem _ hq)
          have hlook : (store.validate_and_mark_used t').2.sessions.lookup t
              = some sd := by
            unfold SessionStore.validate_and_mark_used
            cases hx : store.sessions.lookup t' with
            | none => simpa using hl
            | some sd' =>
                by_cases hsu : sd'.used
                · simpa [hsu] using hl
                · simp only [hsu, Bool.false_eq_true, if_false]
                  show (setUsed store.sessions t').lookup t = some sd
                  by_cases ht' : t' = t
                  · subst ht'
                    rw [hl] at hx
                    rw [(Option.some.inj hx).symm] at hsu
                    exact absurd hu (by simpa using hsu)
                  · rw [lookup_setUsed_ne _ _ _ ht']
                    exact hl
          obtain ⟨ha, hb⟩ := ih _ hlook hnc'
          constructor
          · exact ha
          · intro e he het
            simp only [runStore, List.mem_cons] at he
            rcases he with he | he
            · by_cases ht' : t' = t
              · subst ht'
                have hr : store.validate_and_mark_used t' = (none, store) := by
                  unfold SessionStore.validate_and_mark_used
                  rw [hl]
                  simp [hu]
                rw [he, hr]
              · exact absurd (by rw [he] at het; exact het) ht'
            · exact hb e he het

lemma never_created (l : List StoreOp) (t : String) :
    ∀ store : SessionStore, store.sessions.lookup t = none →
      (∀ p, StoreOp.create t p ∉ l) →
      (runStore store l).1.sessions.lookup t = none
      ∧ (∀ e ∈ (runStore store l).2, e.1 = t → e.2 = none) := by
  induction l with
  | nil =>
      intro store hl hnc
      exact ⟨hl, by intro e he; cases he⟩
  | cons op rest ih =>
      intro store hl hnc
      cases op with
      | create t' p =>
          have ht' : t' ≠ t := by
            intro hh
            exact hnc p (by rw [hh]; exact List.mem_cons_self _ _)
          have hnc' : ∀ q, StoreOp.create t q ∉ rest := by
            intro q hq
            exact hnc q (List.mem_cons_of_mem _ hq)
          have hl' : (store.create_session t' p).sessions.lookup t = none := by
            rw [lookup_create_ne store t' p t ht']
            exact hl
          exact ih _ hl' hnc'
      | validate t' =>
          have hnc' : ∀ q, StoreOp.create t q ∉ rest := by
            intro q hq
            exact hnc q (List.mem_cons_of_mem _ hq)
          have hlook : (store.validate_and_mark_used t').2.sessions.lookup t
              = none := by
            unfold SessionStore.validate_and_mark_used
            cases hx : store.sessions.lookup t' with
            | none => simpa using hl
            | some sd' =>
                by_cases hsu : sd'.used
                · simpa [hsu] using hl
                · simp only [hsu, Bool.false_eq_true, if_false]
                  show (setUsed store.sessions t').lookup t = none
                  by_cases ht' : t' = t
                  · subst ht'
                    rw [hl] at hx
                    cases hx
                  · rw [lookup_setUsed_ne _ _ _ ht']
                    exact hl
          obtain ⟨ha, hb⟩ := ih _ hlook hnc'
          constructor
          · exact ha
          · intro e he het
            simp only [runStore, List.mem_cons] at he
            rcases he with he | he
            · by_cases ht' : t' = t
              · subst ht'
                have hr : store.validate_and_mark_used t' = (none, store) := by
                  unfold SessionStore.validate_and_mark_used
                  rw [hl]
                rw [he, hr]
              · exact absurd (by rw [he] at het; exact het) ht'
            · exact hb e he het

lemma countSome_cons (t' : String) (r : Option String)
    (trace : List (String × Option String)) (t : String) :
    countSome ((t', r) :: trace) t
      = (if t' = t ∧ r.isSome = true then 1 else 0) + countSome trace t := by
  unfold countSome
  by_cases h : t' = t ∧ r.isSome = true
  · simp [List.filter, h.1, h.2, Nat.add_comm]
  · rcases Decidable.not_and_iff_or_not.mp h with h1 | h1 <;>
      simp [List.filter, h1, h]

lemma count_bound (l : List StoreOp) (t : String) :
    ∀ store : SessionStore, (createTokens l).Nodup →
      (t ∈ createTokens l → store.sessions.lookup t = none) →
      countSome (runStore store l).2 t
        ≤ (if store.is_valid t then 1 else 0)
          + (if t ∈ createTokens l then 1 else 0) := by
  induction l with
  | nil =>
      intro store hnd hfr
      simp [runStore, countSome]
  | cons op rest ih =>
      intro store hnd hfr
      cases op with
      | create t' p =>
          have hnd0 : ((t' :: createTokens rest) : List String).Nodup := by
            simpa [createTokens] using hnd
          have hnd' : (createTokens rest).Nodup := hnd0.of_cons
          have htn : t' ∉ createTokens rest := (List.nodup_cons.mp hnd0).1
          by_cases ht' : t' = t
          · subst ht'
            have hval : (store.create_session t' p).is_valid t' = true := by
              simp [SessionStore.is_valid, SessionStore.create_session,
                List.lookup]
            have hbound := ih (store.create_session t' p) hnd'
              (fun hmem => absurd hmem htn)
            rw [hval] at hbound
            have hb2 : countSome (runStore (store.create_session t' p) rest).2 t'
                ≤ 1 := by
              simpa [htn] using hbound
            show countSome (runStore (store.create_session t' p) rest).2 t' ≤ _
            have hmem1 : t' ∈ createTokens (StoreOp.create t' p :: rest) := by
              simp [createTokens]
            rw [if_pos hmem1]
            exact le_trans hb2 (Nat.le_add_left 1 _)
          · have hval : (store.create_session t' p).is_valid t
                = store.is_valid t := by
              simp [SessionStore.is_valid, lookup_create_ne store t' p t ht']
            have hfr' : t ∈ createTokens rest →
                (store.create_session t' p).sessions.lookup t = none := by
              intro hmem
              rw [lookup_create_ne store t' p t ht']
              exact hfr (by simp [createTokens, hmem])
            have hbound := ih (store.create_session t' p) hnd' hfr'
            rw [hval] at hbound
            show countSome (runStore (store.create_session t' p) rest).2 t ≤ _
            refine le_trans hbound ?_
            have hmem_iff : t ∈ createTokens (StoreOp.create t' p :: rest)
                ↔ t ∈ createTokens rest := by
              simp [createTokens, Ne.symm ht']
            by_cases hmem : t ∈ createTokens rest
            · rw [if_pos (hmem_iff.mpr hmem), if_pos hmem]
            · rw [if_neg (fun hx => hmem (hmem_iff.mp hx)), if_neg hmem]
      | validate t' =>
          have hct : createTokens (StoreOp.validate t' :: rest)
              = createTokens rest := rfl
          have htrace : (runStore store (StoreOp.validate t' :: rest)).2
              = (t', (store.validate_and_mark_used t').1)
                :: (runStore (store.validate_and_mark_used t').2 rest).2 := by
            simp [runStore]
          rw [htrace, countSome_cons, hct]
          by_cases ht' : t' = t
          · subst ht'
            by_cases hav : store.is_valid t' = true
            · have hsd : ∃ sd, store.sessions.lookup t' = some sd
                  ∧ sd.used = false := by
                unfold SessionStore.is_valid at hav
                cases hx : store.sessions.lookup t' with
                | none => rw [hx] at hav; cases hav
                | some sd =>
                    rw [hx] at hav
                    exact ⟨sd, rfl, by simpa using hav⟩
              obtain ⟨sd, hx, hun⟩ := hsd
              have hr : store.validate_and_mark_used t'
                  = (some sd.file_path, ⟨setUsed store.sessions t'⟩) := by
                unfold SessionStore.validate_and_mark_used
                rw [hx]
                simp [hun]
              have hnotm : t' ∉ createTokens rest := by
                intro hmem
                rw [hfr hmem] at hx
                cases hx
              have hval2 : (store.validate_and_mark_used t').2.is_valid t'
                  = false := by
                rw [hr]
                simp [SessionStore.is_valid, lookup_setUsed_self _ _ _ hx]
              have hbound := ih (store.validate_and_mark_used t').2
                hnd (fun hmem => absurd hmem hnotm)
              rw [hval2] at hbound
              have hb2 : countSome
                  (runStore (store.validate_and_mark_used t').2 rest).2 t' = 0 := by
                have := hbound
                simp [hnotm] at this
                exact this
              rw [hb2, hr, if_pos ⟨rfl, rfl⟩, if_pos hav, if_neg hnotm]
            · have hr : store.validate_and_mark_used t' = (none, store) := by
                unfold SessionStore.validate_and_mark_used
                unfold SessionStore.is_valid at hav
                cases hx : store.sessions.lookup t' with
                | none => rfl
                | some sd =>
                    rw [hx] at hav
                    have hsu : sd.used = true := by simpa using hav
                    simp [hsu]
              have hbound := ih store hnd hfr
              rw [hr]
              rw [if_neg (by simp)]
              simpa [hav] using hbound
          · have hlook : (store.validate_and_mark_used t').2.sessions.lookup t
                = store.sessions.lookup t := by
              unfold SessionStore.validate_and_mark_used
              cases hx : store.sessions.lookup t' with
              | none => rfl
              | some sd' =>
                  by_cases hsu : sd'.used
                  · simp [hsu]
                  · simp only [hsu, Bool.false_eq_true, if_false]
                    exact lookup_setUsed_ne _ _ _ ht'
            have hval : (store.validate_and_mark_used t').2.is_valid t
                = store.is_valid t := by
              simp [SessionStore.is_valid, hlook]
            have hbound := ih (store.validate_and_mark_used t').2
              hnd (fun hmem => by rw [hlook]; exact hfr hmem)
            rw [hval] at hbound
            rw [if_neg (by simp [ht'])]
            simpa using hbound

/-- C10: over any history of creations (with distinct fresh tokens) and
validations from an empty store, a token is validated successfully at most
once: the first validation of an existing unused token returns its file
path and marks it used, after which `is_valid` is false and every later
validation returns `none`; tokens never created always validate to
`none`. -/
theorem C10_validate_and_mark_used_once (ops : List StoreOp) (t : String) :
    ((createTokens ops).Nodup →
      countSome (runStore SessionStore.new ops).2 t ≤ 1)
    ∧ (∀ store : SessionStore, ∀ sd : SessionData,
        store.sessions.lookup t = some sd → sd.used = false →
        (store.validate_and_mark_used t).1 = some sd.file_path
        ∧ (store.validate_and_mark_used t).2.is_valid t = false
        ∧ ((store.validate_and_mark_used t).2.validate_and_mark_used t).1 = none)
    ∧ (∀ store : SessionStore, ∀ sd : SessionData, ∀ l : List StoreOp,
        store.sessions.lookup t = some sd → sd.used = true →
        (∀ p, StoreOp.create t p ∉ l) →
        (runStore store l).1.is_valid t = false
        ∧ (∀ e ∈ (runStore store l).2, e.1 = t → e.2 = none))
    ∧ ((∀ p, StoreOp.create t p ∉ ops) →
        ∀ e ∈ (runStore SessionStore.new ops).2, e.1 = t → e.2 = none) := by
  refine ⟨?_, ?_, ?_, ?_⟩
  · intro hnd
    have h := count_bound ops t SessionStore.new hnd (fun _ => rfl)
    refine le_trans h ?_
    by_cases hmem : t ∈ createTokens ops <;>
      simp [SessionStore.is_valid, SessionStore.new, List.lookup, hmem]
  · intro store sd hl hun
    have hr : store.validate_and_mark_used t
        = (some sd.file_path, ⟨setUsed store.sessions t⟩) := by
      unfold SessionStore.validate_and_mark_used
      rw [hl]
      simp [hun]
    have hl2 : (setUsed store.sessions t).lookup t
        = some { sd with used := true } := lookup_setUsed_self _ _ _ hl
    refine ⟨by rw [hr], ?_, ?_⟩
    · rw [hr]
      simp [SessionStore.is_valid, hl2]
    · rw [hr]
      unfold SessionStore.validate_and_mark_used
      show (match (setUsed store.sessions t).lookup t with
        | some sd => if sd.used then (none, SessionStore.mk (setUsed store.sessions t))
            else (some sd.file_path, SessionStore.mk (setUsed (setUsed store.sessions t) t))
        | none => (none, SessionStore.mk (setUsed store.sessions t))).1 = none
      rw [hl2]
      rfl
  · intro store sd l hl hu hnc
    obtain ⟨ha, hb⟩ := used_stays l t sd hu store hl hnc
    refine ⟨?_, hb⟩
    simp [SessionStore.is_valid, ha, hu]
  · intro hnc
    exact (never_created ops t SessionStore.new rfl hnc).2

/-- C10 witness: create token "tk", validate it twice — the trace contains
exactly one successful validation; on a store holding an unused "tk" the
first validation returns the path and invalidates the token. -/
theorem C10_validate_and_mark_used_once_witness :
    countSome (runStore SessionStore.new
      [.create "tk" "f.txt", .validate "tk", .validate "tk"]).2 "tk" ≤ 1
    ∧ (SessionStore.validate_and_mark_used ⟨[("tk", ⟨"f.txt", false⟩)]⟩ "tk").1
        = some "f.txt"
    ∧ (SessionStore.validate_and_mark_used ⟨[("tk", ⟨"f.txt", false⟩)]⟩ "tk").2.is_valid
        "tk" = false
    ∧ ((runStore (⟨[("tk", ⟨"f.txt", true⟩)]⟩ : SessionStore)
        [.validate "tk"]).1.is_valid "tk" = false) := by
  have h := C10_validate_and_mark_used_once
    [.create "tk" "f.txt", .validate "tk", .validate "tk"] "tk"
  have h2 := C10_validate_and_mark_used_once [.validate "tk"] "tk"
  refine ⟨h.1 (by decide), ?_, ?_, ?_⟩
  · exact (h.2.1 ⟨[("tk", ⟨"f.txt", false⟩)]⟩ ⟨"f.txt", false⟩ (by decide) rfl).1
  · exact (h.2.1 ⟨[("tk", ⟨"f.txt", false⟩)]⟩ ⟨"f.txt", false⟩ (by decide) rfl).2.1
  · exact (h2.2.2.1 ⟨[("tk", ⟨"f.txt", true⟩)]⟩ ⟨"f.txt", true⟩ [.validate "tk"]
      (by decide) rfl (by intro p hp; simp at hp)).1

end ArchDrop
